import Mathlib

/-!
# PROXY-protocol interception in `src/proxywrap.js`

A shallow embedding of `connectionListener` (lines 96-225): the capturing
`socket.emit` shim, `restore`, the timeout timer and `onReadable`.

* A `Buffer` is a list of bytes; a JavaScript string is a list of characters.
* The per-connection closure variables (`buf`, `history`, `_timeoutTimer`), the
  socket, the server counter `_openSockets` and a few observation logs form one
  `State`.
* A chunk that `socket.read()` returns comes with the `data` notification that
  Node emits for it through `socket.emit`.
* Code that can raise (`ppv2.parse`, a method call on `null`) returns
  `Except State State`: `.error s` is the state in which the exception leaves the
  function.
* The library `proxy-protocol-js` is not part of the repository: its `parse` is a
  parameter `parse : Buffer → Option ProxyData`, `none` standing for a raised
  `V2ProxyProtocolParseError`.
-/

namespace ProxyWrap

/-! ## Buffers and strings -/

abbrev Byte := Fin 256

abbrev Buffer := List Byte

/-- The constant `v2Header` of line 140. -/
def v2Header : Buffer := [13, 10, 13, 10, 0, 13, 10, 81, 85, 73, 84, 10]

/-- The bytes of an ASCII literal, as `Buffer.from(str)` gives them. -/
def bytes (str : String) : Buffer := str.toList.map fun c => Fin.ofNat c.toNat

/-- Node's `buf.toString('ascii')`: every byte is decoded with its highest bit
cleared. -/
def toStringAscii (b : Buffer) : List Char := b.map fun x => Char.ofNat (x.val % 128)

/-- JavaScript `str.indexOf(c)`; `none` stands for the result `-1`. -/
def indexOf (c : Char) : List Char → Option Nat
  | [] => none
  | x :: xs => if x = c then some 0 else (indexOf c xs).map (· + 1)

/-- JavaScript `str.split(sep)` for a one-character separator. -/
def split (sep : Char) : List Char → List (List Char)
  | [] => [[]]
  | c :: cs =>
    if c = sep then [] :: split sep cs
    else match split sep cs with
      | [] => [[c]]
      | f :: fs => (c :: f) :: fs

/-- The white space that `parseInt` skips (ECMAScript `StrWhiteSpaceChar`). -/
def isStrWhiteSpace (c : Char) : Bool :=
  decide (c.toNat ∈ [9, 10, 11, 12, 13, 32, 160, 5760, 8232, 8233, 8239, 8287, 12288, 65279])
    || (decide (8192 ≤ c.toNat) && decide (c.toNat ≤ 8202))

/-- Value of a string of decimal digits. -/
def digitsValue (ds : List Char) : Nat := ds.foldl (fun acc d => 10 * acc + (d.toNat - 48)) 0

/-- A JavaScript number whose value is an integer or an infinity (`NaN` is kept
apart, as `none`). -/
inductive JSNumber
  | finite (value : Int)
  | infinity (negative : Bool)
deriving DecidableEq, Repr

/-- Number of binary digits of `n`, with fuel. -/
def bitLengthAux : Nat → Nat → Nat
  | 0, _ => 0
  | fuel + 1, n => if n = 0 then 0 else bitLengthAux fuel (n / 2) + 1

/-- Number of binary digits of `n`. -/
def bitLength (n : Nat) : Nat := bitLengthAux n n

/-- The double nearest to the natural number `n`: `n` itself up to 53 binary
digits, else `n` rounded to 53 significant binary digits, a tie going to the even
one; `none` is `Infinity` (the rounded value needs more than 1024 binary digits). -/
def toDouble (n : Nat) : Option Nat :=
  if bitLength n ≤ 53 then some n
  else
    let shift := bitLength n - 53
    let q := n >>> shift
    let r := n - (q <<< shift)
    let half := 1 <<< (shift - 1)
    let m := if half < r ∨ (r = half ∧ q % 2 = 1) then q + 1 else q
    if 1024 < bitLength (m <<< shift) then none else some (m <<< shift)

/-- JavaScript `parseInt(x, 10)`. The argument `none` is `undefined`, the result
`none` is `NaN`. White space is skipped, a sign is read, then the longest run of
decimal digits; its value is returned as a double (`-0` is not told apart from
`0`). -/
def parseInt : Option (List Char) → Option JSNumber
  | none => none
  | some str =>
    let t := str.dropWhile isStrWhiteSpace
    let u := if t.head? = some '-' ∨ t.head? = some '+' then t.tail else t
    let ds := u.takeWhile Char.isDigit
    if ds = [] then none
    else match toDouble (digitsValue ds) with
      | none => some (.infinity (decide (t.head? = some '-')))
      | some v => if t.head? = some '-' then some (.finite (-(v : Int))) else some (.finite (v : Int))

/-- JavaScript `String(n)` for a natural number. -/
def decimal (n : Nat) : List Char := Nat.toDigits 10 n

/-- JavaScript `arr.join('.')` for an array of numbers. -/
def joinDot : List Nat → List Char
  | [] => []
  | [n] => decimal n
  | n :: m :: ns => decimal n ++ '.' :: joinDot (m :: ns)

/-- JavaScript `buf.slice(n)`; the start `none` is `NaN`, read as `0`. -/
def slice (b : Buffer) : Option Nat → Buffer
  | none => b
  | some n => b.drop n

/-! ## Data model -/

/-- The object `connectionData` of lines 164-167 and 174-177. A `sourceAddress`
of `none` is `undefined`; a `sourcePort` of `none` is `NaN` (v1) or `undefined`
(v2). -/
structure ConnectionData where
  sourceAddress : Option (List Char)
  sourcePort : Option JSNumber
deriving DecidableEq, Repr

/-- The `proxyAddress` of the object returned by `V2ProxyProtocol.parse`, as the
classes of `proxy-protocol-js` shape it: an IPv4 or IPv6 address carries
`sourceAddress.address` (an array of byte values) and `sourcePort`, a Unix address
carries `sourceAddress.address` only, an unspecified address carries neither. -/
inductive ProxyAddress
  | inet (address : List Nat) (sourcePort : Int)
  | unix (address : List Nat)
  | unspec
deriving DecidableEq, Repr

/-- The object returned by `V2ProxyProtocol.parse`, as far as `onReadable` reads
it. -/
structure ProxyData where
  proxyAddress : ProxyAddress
deriving DecidableEq, Repr

/-- The chain `proxyData.proxyAddress?.sourceAddress?.address`; `none` is
`undefined`. -/
def ProxyData.address (d : ProxyData) : Option (List Nat) :=
  match d.proxyAddress with
  | .inet a _ => some a
  | .unix a => some a
  | .unspec => none

/-- The chain `proxyData.proxyAddress?.sourcePort`; `none` is `undefined`. -/
def ProxyData.sourcePort (d : ProxyData) : Option Int :=
  match d.proxyAddress with
  | .inet _ p => some p
  | .unix _ => none
  | .unspec => none

/-- An argument of a notification: a chunk of data, or any other value, kept as
a name. -/
inductive Argument
  | chunk (data : Buffer)
  | value (name : String)
deriving DecidableEq, Repr

/-- The arguments of one `socket.emit(event, ...)` call. -/
structure Notification where
  event : String
  args : List Argument
deriving DecidableEq, Repr

/-- The notification `data` that `socket.read()` emits with the chunk it
returns. -/
def dataNotification (chunk : Buffer) : Notification :=
  { event := "data", args := [.chunk chunk] }

/-- The options object of `exports.proxy`; `none` is a key that is not set. -/
structure Options where
  strict : Option Bool
  timeout : Option Nat
  debug : Bool
deriving DecidableEq, Repr

/-- The `exports.defaults` of lines 36-38. -/
def defaultStrict : Bool := true

/-- Line 48: a default is copied for every key the caller left out. -/
def withDefaults (o : Options) : Options :=
  { o with strict := some (o.strict.getD defaultStrict) }

/-- Line 112: `options.timeout || 5000`. -/
def timeOut (o : Options) : Nat :=
  match o.timeout with
  | none => 5000
  | some t => if t = 0 then 5000 else t

/-- The local variables of one `onReadable` call (line 144). A `proxyVersion`
of `none` is `undefined`; a `headerLength` of `none` is `NaN`. -/
structure Locals where
  proxyVersion : Option Int
  connectionData : Option ConnectionData
  headerLength : Option Nat
deriving DecidableEq, Repr

/-- Line 144: `let chunk, proxyVersion, connectionData, headerLength = 0`. -/
def Locals.init : Locals :=
  { proxyVersion := none, connectionData := none, headerLength := some 0 }

/-- One accepted connection: closure variables of `connectionListener`, the
socket, the server, and logs of what the code did. -/
structure State where
  /-- The options of the enclosing `exports.proxy` call. -/
  options : Options
  /-- Closure variable `buf`. -/
  buf : Buffer
  /-- Closure variable `history`; `none` is `null`. -/
  history : Option (List Notification)
  /-- Closure variable `_timeoutTimer` holds a timer (`false`: `null`). -/
  timeoutTimer : Bool
  /-- The runtime still has the timer scheduled: not fired, not cleared. -/
  timerPending : Bool
  /-- The property `socket.emit` is the capturing shim (`false`: `realEmit`). -/
  emitIsShim : Bool
  /-- The function `onReadable` is registered as a listener of `readable`. -/
  readableListener : Bool
  /-- The chunks that successive `socket.read()` calls return, oldest first. -/
  queue : List Buffer
  /-- The call `socket.destroy()` was made. -/
  destroyed : Bool
  /-- The object behind the installed `remoteAddress` and `remotePort` getters. -/
  connectionData : Option ConnectionData
  /-- The property `socket.ondata` is set. -/
  ondata : Bool
  /-- The property `socket.onend` is set. -/
  onend : Bool
  /-- The counter `_openSockets`. -/
  openSockets : Int
  /-- Log: the calls of the original emit, oldest first. -/
  emitted : List Notification
  /-- Log: every call of `socket.emit`, oldest first. -/
  calls : List Notification
  /-- Log: number of `proxiedConnection` events emitted for this socket. -/
  proxiedConnections : Nat
  /-- Log: number of `restore()` calls. -/
  restores : Nat
  /-- Log: the arguments of `socket.unshift`, oldest first. -/
  unshifted : List Buffer
  /-- Log: the data passed to `socket.ondata`. -/
  ondataCalls : List Buffer
  /-- Log: number of `socket.onend()` calls. -/
  onendCalls : Nat
  /-- Log: the arguments of `ppv2.parse`, oldest first. -/
  parsed : List Buffer
  /-- Log: the last `proxyVersion` and `headerLength` set by detection. -/
  detected : Option Locals
  /-- Log: the local variables when the connection was resolved (what the debug
  output of lines 183-185 is computed from). -/
  resolved : Option Locals
  /-- Log: number of times the timer callback destroyed the socket. -/
  timerDestroys : Nat
  /-- Log: number of exceptions that left a callback. -/
  uncaught : Nat
deriving DecidableEq, Repr

/-- The `proxyVersion` with which the connection was resolved, if it was. -/
def State.version (s : State) : Option Int :=
  match s.resolved with
  | some l => l.proxyVersion
  | none => none

/-! ## The code -/

/-- Lines 150-152: `(buf[14] << 8) + buf[15] + 16`, which is `NaN` when a byte
is missing. -/
def v2HeaderLength (buf : Buffer) : Option Nat :=
  match buf.get? 14, buf.get? 15 with
  | some upperLengthByte, some lowerLengthByte =>
    some ((upperLengthByte.val <<< 8) + lowerLengthByte.val + 16)
  | _, _ => none

/-- Lines 148-159, the signature tests; `none` is the `continue` of line 158. -/
def detect (l : Locals) (buf : Buffer) : Option Locals :=
  if l.proxyVersion = none ∧ 12 ≤ buf.length ∧ buf.take 12 = v2Header then
    some { l with proxyVersion := some 2, headerLength := v2HeaderLength buf }
  else if l.proxyVersion = none ∧ 5 ≤ buf.length
      ∧ toStringAscii (buf.take 5) = ['P', 'R', 'O', 'X', 'Y'] then
    some { l with proxyVersion := some 1 }
  else if 12 ≤ buf.length then
    some { l with proxyVersion := some (-1) }
  else none

/-- Lines 165-166: the connection data built from the parser's result. -/
def v2ConnectionData (proxyData : ProxyData) : ConnectionData :=
  { sourceAddress := some (joinDot (proxyData.address.getD [0, 0, 0, 0])),
    sourcePort := proxyData.sourcePort.map JSNumber.finite }

/-- Lines 173-177: the connection data read from a v1 header. -/
def v1ConnectionData (buf : Buffer) (headerLength : Nat) : ConnectionData :=
  let header := split ' ' (toStringAscii (buf.take headerLength))
  { sourceAddress := header[2]?, sourcePort := parseInt header[4]? }

/-- Lines 161-179, header parsing. -/
def parseHeader (parse : Buffer → Option ProxyData) (s : State) (l : Locals) :
    Except State (State × Locals) :=
  if l.proxyVersion = some 2 then
    match l.headerLength with
    | none => .ok (s, l)
    | some headerLength =>
      if headerLength ≤ s.buf.length then
        let s := { s with parsed := s.parsed ++ [s.buf.take headerLength] }
        match parse (s.buf.take headerLength) with
        | none => .error s
        | some proxyData => .ok (s, { l with connectionData := some (v2ConnectionData proxyData) })
      else .ok (s, l)
  else if l.proxyVersion = some 1 then
    match indexOf (Char.ofNat 13) (toStringAscii s.buf) with
    | none => .ok (s, l)
    | some crlf =>
      if 0 < crlf then
        .ok (s, { l with headerLength := some (crlf + 2),
                         connectionData := some (v1ConnectionData s.buf (crlf + 2)) })
      else .ok (s, l)
  else .ok (s, l)

/-- The original `emit` of the socket (`realEmit`): the listeners run. Of the
listeners only the `close` listener of lines 101-103 belongs to this code;
`onReadable` is removed (line 206) before the first call of `realEmit`. -/
def realEmit (s : State) (n : Notification) : State :=
  let s := { s with emitted := s.emitted ++ [n] }
  if n.event = "close" then { s with openSockets := s.openSockets - 1 } else s

/-- The call `socket.emit('data', chunk)` that Node's `socket.read()` makes with
every chunk it returns (while neither `error` nor `close` was emitted, after
which Node emits no `readable` either). The shim records the notification, whose
event is not `readable`, and raises when it finds `history` to be `null`; the
original emit passes it to the listeners. -/
def emitData (s : State) (chunk : Buffer) : Except State State :=
  let s := { s with calls := s.calls ++ [dataNotification chunk] }
  if s.emitIsShim = true then
    match s.history with
    | none => .error s
    | some h => .ok { s with history := some (h ++ [dataNotification chunk]) }
  else .ok (realEmit s (dataNotification chunk))

/-- The loop of lines 130-133. -/
def replay (s : State) : List Notification → State
  | [] => s
  | n :: ns =>
    let s := realEmit s n
    let s := if n.event = "end" ∧ s.onend = true then { s with onendCalls := s.onendCalls + 1 } else s
    replay s ns

/-- The function `restore` of lines 127-135. -/
def restore (s : State) : Except State State :=
  let s := { s with emitIsShim := false, restores := s.restores + 1 }
  match s.history with
  | none => .error s
  | some h => .ok { replay s h with history := none }

/-- Lines 181-218: the connection is handed to the consumer. -/
def resolveConnection (s : State) (l : Locals) : Except State State :=
  let s := { s with resolved := some l }
  let s := match l.connectionData with
    | some cd => { s with connectionData := some cd }
    | none => s
  let s := { s with readableListener := false }
  match restore s with
  | .error s => .error s
  | .ok s =>
    let rest := slice s.buf l.headerLength
    let s := { s with unshifted := s.unshifted ++ [rest],
                      queue := if rest = [] then s.queue else rest :: s.queue }
    let s := { s with proxiedConnections := s.proxiedConnections + 1 }
    if s.ondata = true then
      match s.queue with
      | [] => .ok s
      | data :: q =>
        match emitData { s with queue := q } data with
        | .error s => .error s
        | .ok s => .ok { s with ondataCalls := s.ondataCalls ++ [data] }
    else .ok s

/-- The `while` loop of lines 145-220; the first argument is what `socket.read()`
will return, call after call, each chunk with its `data` notification. -/
def readLoop (parse : Buffer → Option ProxyData) : List Buffer → State → Locals → Except State State
  | [], s, _ => .ok s
  | chunk :: rest, s, l =>
    match emitData { s with queue := rest } chunk with
    | .error s => .error s
    | .ok s =>
      let s := { s with buf := s.buf ++ chunk }
      match detect l s.buf with
      | none => readLoop parse rest s l
      | some l =>
        let s := { s with detected := some l }
        match parseHeader parse s l with
        | .error s => .error s
        | .ok (s, l) =>
          if l.proxyVersion = some (-1) ∨ l.connectionData.isSome = true then resolveConnection s l
          else readLoop parse rest s l

/-- The function `onReadable` of lines 143-224. -/
def onReadable (parse : Buffer → Option ProxyData) (s : State) : Except State State :=
  match readLoop parse s.queue s Locals.init with
  | .error s => .error s
  | .ok s => .ok { s with timerPending := false, timeoutTimer := false }

/-- The capturing shim of lines 120-125. -/
def shim (parse : Buffer → Option ProxyData) (s : State) (n : Notification) : Except State State :=
  match s.history with
  | none => .error s
  | some h =>
    let s := { s with history := some (h ++ [n]) }
    if n.event = "readable" then onReadable parse s else .ok s

/-- A call `socket.emit(...)`: whatever function the property holds runs. -/
def socketEmit (parse : Buffer → Option ProxyData) (s : State) (n : Notification) :
    Except State State :=
  let s := { s with calls := s.calls ++ [n] }
  if s.emitIsShim = true then shim parse s n else .ok (realEmit s n)

/-- The timer callback of lines 113-117. -/
def timeoutCallback (s : State) : State :=
  if s.timeoutTimer = false then s
  else { s with destroyed := true, openSockets := s.openSockets - 1,
                timerDestroys := s.timerDestroys + 1 }

/-- The function `connectionListener` of lines 96-141 on a fresh socket, for the
counter value `openSockets` before the connection. -/
def connectionListener (options : Options) (openSockets : Int) (ondata onend : Bool) : State :=
  { options := withDefaults options, buf := [], history := some [], timeoutTimer := true,
    timerPending := true, emitIsShim := true, readableListener := true, queue := [],
    destroyed := false, connectionData := none, ondata := ondata, onend := onend,
    openSockets := openSockets + 1, emitted := [], calls := [], proxiedConnections := 0,
    restores := 0, unshifted := [], ondataCalls := [], onendCalls := 0, parsed := [],
    detected := none, resolved := none, timerDestroys := 0, uncaught := 0 }

/-! ## The runtime around the code -/

/-- What happens to a connection: the stream layer emits a notification, a chunk
becomes readable, or the deadline of the timer elapses. -/
inductive Event
  | emit (n : Notification)
  | data (chunk : Buffer)
  | deadline
deriving DecidableEq, Repr

/-- An exception that leaves a callback is counted; the state stays as the
callback left it. -/
def escape : Except State State → State
  | .ok s => s
  | .error s => { s with uncaught := s.uncaught + 1 }

/-- One event. Node's stream layer emits no `readable` on a destroyed stream, and
the runtime runs a timer callback once, only while the timer is not cleared. -/
def step (parse : Buffer → Option ProxyData) (s : State) : Event → State
  | .emit n => if n.event = "readable" ∧ s.destroyed = true then s else escape (socketEmit parse s n)
  | .data chunk => { s with queue := s.queue ++ [chunk] }
  | .deadline => if s.timerPending = true then timeoutCallback { s with timerPending := false } else s

/-- A sequence of events. -/
def run (parse : Buffer → Option ProxyData) (s : State) (evs : List Event) : State :=
  evs.foldl (step parse) s

/-- The `readable` notification. -/
def readable : Notification := { event := "readable", args := [] }

/-- The chunks `chunks` arrive and one `readable` callback follows. -/
def callback (chunks : List Buffer) : List Event :=
  chunks.map Event.data ++ [Event.emit readable]

/-- The bytes the consumer gets to see: those handed to `socket.ondata`, then what
`socket.read()` still holds. -/
def consumerStream (s : State) : Buffer := s.ondataCalls.flatten ++ s.queue.flatten

/-- The getter `remoteAddress` of lines 189-195. -/
def remoteAddress (cd : ConnectionData) : Option (List Char) := cd.sourceAddress

/-- The getter `remotePort` of lines 197-203: `connectionData.sourcePort || 0`,
where `NaN`, `undefined` and `0` give `0`. -/
def remotePort (cd : ConnectionData) : JSNumber :=
  match cd.sourcePort with
  | none => .finite 0
  | some (.finite p) => if p = 0 then .finite 0 else .finite p
  | some (.infinity negative) => .infinity negative

/-- A parser that always raises. -/
def rejectAll : Buffer → Option ProxyData := fun _ => none

/-- A parser for IPv4 over TCP in the manner of `proxy-protocol-js`: it raises
unless the version nibble of byte 12 is 2, and otherwise reports the four
address bytes at offset 16 and the big-endian port at offset 24. -/
def ipv4Parser (b : Buffer) : Option ProxyData :=
  match b.get? 12 with
  | none => none
  | some vc =>
    if vc.val / 16 = 2 then
      match b.get? 24, b.get? 25 with
      | some hi, some lo =>
        some { proxyAddress := .inet (((b.drop 16).take 4).map Fin.val) ((256 * hi.val + lo.val : Nat) : Int) }
      | _, _ => some { proxyAddress := .unspec }
    else none

/-- The default options: nothing set by the caller. -/
def noOptions : Options := { strict := none, timeout := none, debug := false }

/-- A fresh connection with counter 0 and no legacy hooks. -/
def fresh : State := connectionListener noOptions 0 false false

/-- Scenario A of the specification. -/
def scenarioA : Buffer := bytes "PROXY TCP4 192.168.0.1 192.168.0.11 56324 443\r\nGET / HTTP/1.1\r\n"

/-- Scenario B of the specification, with the payload `GET /`. -/
def scenarioB : Buffer :=
  v2Header ++ [0x21, 0x11, 0x00, 0x0C, 10, 0, 0, 5, 10, 0, 0, 9, 0x1F, 0x90, 0x01, 0xBB]
    ++ bytes "GET /"

/-- Scenario C of the specification. -/
def scenarioC : Buffer := bytes "GET / HTTP/1.1\r\nHost: example.com\r\n\r\n"

/-! ## Notions used in the statements and proofs -/

/-- From the words of the specification: the buffer with its first line, up to
and including the first `\r\n`, removed. -/
def stripHeaderLine : Buffer → Buffer
  | [] => []
  | [_] => []
  | a :: b :: r => if a = 13 ∧ b = 10 then r else stripHeaderLine (b :: r)

/-- From the words of the specification: the header line, the bytes before the
first `\r\n`. -/
def headerLine : Buffer → Buffer
  | [] => []
  | [a] => [a]
  | a :: b :: r => if a = 13 ∧ b = 10 then [] else a :: headerLine (b :: r)

/-- Number of `close` notifications in a list. -/
def closes (h : List Notification) : Nat := h.countP fun n => n.event = "close"

/-- Number of `end` notifications in a list. -/
def ends (h : List Notification) : Nat := h.countP fun n => n.event = "end"

/-- The state in which `resolveConnection` returns when `history` holds `h`. -/
def resolvedState (s : State) (l : Locals) (h : List Notification) : State :=
  let rest := slice s.buf l.headerLength
  let q := if rest = [] then s.queue else rest :: s.queue
  let read := if s.ondata = true then q.head?.toList else []
  { s with
    resolved := some l
    connectionData := (match l.connectionData with
      | some cd => some cd
      | none => s.connectionData)
    readableListener := false
    emitIsShim := false
    restores := s.restores + 1
    history := none
    emitted := s.emitted ++ h ++ read.map dataNotification
    calls := s.calls ++ read.map dataNotification
    openSockets := s.openSockets - closes h
    onendCalls := s.onendCalls + (if s.onend = true then ends h else 0)
    unshifted := s.unshifted ++ [rest]
    proxiedConnections := s.proxiedConnections + 1
    queue := if s.ondata = true then q.tail else q
    ondataCalls := s.ondataCalls ++ read }

/-- The state `t` differs from `s` at most in `buf`, `queue`, `detected` and
`parsed`, and in the notifications `ns` that the shim recorded meanwhile. -/
def Frame (s t : State) : Prop :=
  ∃ b q d p ns, t = { s with buf := b, queue := q, detected := d, parsed := p,
                             calls := s.calls ++ ns,
                             history := s.history.map fun h => h ++ ns }

/-- The state after `socket.read()` returned `c` under the shim and `c` was added
to the buffer; `h` is the history before. -/
def afterRead (s : State) (c : Buffer) (cs : List Buffer) (h : List Notification) : State :=
  { s with queue := cs, calls := s.calls ++ [dataNotification c],
           history := some (h ++ [dataNotification c]), buf := s.buf ++ c }

/-- Interception is under way: the shim is installed and has recorded every
notification; `n` is the counter before the connection was accepted. -/
def Capturing (n : Int) (s : State) : Prop :=
  s.emitIsShim = true ∧ s.history = some s.calls ∧ s.emitted = [] ∧ s.restores = 0
    ∧ s.proxiedConnections = 0 ∧ s.openSockets = n + 1 - s.timerDestroys
    ∧ s.timerDestroys ≤ 1 ∧ (s.destroyed = true ↔ s.timerDestroys = 1)
    ∧ (s.timerPending = true → s.timeoutTimer = true ∧ s.timerDestroys = 0)

/-- Interception is over: the connection was handed to the consumer. -/
def Delivered (n : Int) (s : State) : Prop :=
  s.emitIsShim = false ∧ s.history = none ∧ s.emitted = s.calls ∧ s.restores = 1
    ∧ s.proxiedConnections = 1 ∧ s.openSockets = n + 1 - closes s.calls
    ∧ s.timerDestroys = 0 ∧ s.destroyed = false ∧ s.timerPending = false
    ∧ s.timeoutTimer = false

/-- Every reachable state of a connection is of one of the two kinds. -/
def Inv (n : Int) (s : State) : Prop := Capturing n s ∨ Delivered n s

/-- The state in which the shim calls `onReadable` in the first callback. -/
def firstCall (o : Options) (n : Int) (od oe : Bool) (chunks : List Buffer) : State :=
  { connectionListener o n od oe with
    queue := chunks, calls := [readable], history := some [readable] }

/-- The state in the first callback once `socket.read()` has returned the chunk
`B` and it was added to the buffer. -/
def firstRead (o : Options) (n : Int) (od oe : Bool) (B : Buffer) : State :=
  { connectionListener o n od oe with
    queue := [], buf := B, calls := [readable, dataNotification B],
    history := some [readable, dataNotification B] }

/-- The notifications that a sequence of events emits. -/
def notifications : List Event → List Notification
  | [] => []
  | .emit m :: es => m :: notifications es
  | _ :: es => notifications es

/-- The event is neither the deadline nor a `readable` notification. -/
def Quiet : Event → Bool
  | .deadline => false
  | .emit m => decide (m.event ≠ "readable")
  | .data _ => true

/-- The guard is armed and interception has not met a `readable` callback. -/
def Armed (n : Int) (s : State) : Prop :=
  Capturing n s ∧ s.timerPending = true

/-- The first part of Scenario A, up to and including the carriage return. -/
def upToCarriageReturn : Buffer := bytes "PROXY TCP4 192.168.0.1 192.168.0.11 56324 443\r"

/-- The rest of Scenario A, from the line feed on. -/
def fromLineFeed : Buffer := bytes "\nGET / HTTP/1.1\r\n"

/-- The events of a schedule: each group of chunks arrives and is followed by one
readable callback. -/
def schedule : List (List Buffer) → List Event
  | [] => []
  | g :: gs => callback g ++ schedule gs

/-- Interception waits for more bytes: `done` are the chunks read so far. -/
def Waiting (s : State) (done : List Buffer) : Prop :=
  s.emitIsShim = true ∧ (∃ h, s.history = some h) ∧ s.destroyed = false ∧ s.queue = []
    ∧ s.buf = done.flatten ∧ done.flatten.length < 12 ∧ s.proxiedConnections = 0
    ∧ s.unshifted = [] ∧ s.ondataCalls = [] ∧ s.connectionData = none ∧ s.resolved = none

/-- The connection was passed through without a header, on the chunk `c` with
which the buffer first held 12 bytes: `arrived` are the chunks that arrived so
far. -/
def PassedThrough (s : State) (arrived : List Buffer) : Prop :=
  s.emitIsShim = false ∧ s.destroyed = false ∧ s.proxiedConnections = 1
    ∧ s.resolved = some { proxyVersion := some (-1), connectionData := none, headerLength := some 0 }
    ∧ s.connectionData = none ∧ consumerStream s = arrived.flatten
    ∧ ∃ pre c post, arrived = pre ++ c :: post ∧ s.unshifted = [(pre ++ [c]).flatten]
        ∧ s.buf = (pre ++ [c]).flatten ∧ pre.flatten.length < 12
        ∧ 12 ≤ (pre ++ [c]).flatten.length

/-- Scenario B with the version nibble 1 in place of 2. -/
def badVersion : Buffer :=
  v2Header ++ [0x11, 0x11, 0x00, 0x0C, 10, 0, 0, 5, 10, 0, 0, 9, 0x1F, 0x90, 0x01, 0xBB]
    ++ bytes "GET /"

/-- Seventeen bytes that begin with D0 52 4F 58 59, which `toString('ascii')`
decodes as `PROXY`. -/
def highBitPROXY : Buffer := [0xD0, 0x52, 0x4F, 0x58, 0x59] ++ bytes " hello world"

/-- Scenario C in four chunks over three readable callbacks. -/
def scenarioCGroups : List (List Buffer) :=
  [[bytes "GET / H"], [bytes "TTP/", bytes "1.1\r\n"], [bytes "Host: example.com\r\n\r\n"]]

/-! ## Helper lemmas -/

/-- The model of `parseInt` on sample fields: a plain port, white space, a sign
and trailing text, no digit at all, and an integer beyond `2^53`, which is rounded
to the nearest double. -/
theorem parseInt_samples :
    parseInt (some "56324".toList) = some (.finite 56324)
      ∧ parseInt (some " -12abc".toList) = some (.finite (-12))
      ∧ parseInt (some "443\r\n".toList) = some (.finite 443)
      ∧ parseInt (some "abc".toList) = none
      ∧ parseInt none = none
      ∧ parseInt (some "9007199254740993".toList) = some (.finite 9007199254740992)
      ∧ parseInt (some "9007199254740995".toList) = some (.finite 9007199254740996) := by
  decide

set_option maxRecDepth 200000 in
/-- The model of `parseInt` on a field of 310 digits: `Infinity`. -/
theorem parseInt_infinity :
    parseInt (some (List.replicate 310 '9')) = some (.infinity false) := by
  decide

theorem bytes_PROXY : bytes "PROXY" = [80, 82, 79, 88, 89] := by decide

theorem toStringAscii_append (a b : Buffer) :
    toStringAscii (a ++ b) = toStringAscii a ++ toStringAscii b := by
  simp [toStringAscii]

theorem toStringAscii_length (a : Buffer) : (toStringAscii a).length = a.length := by
  simp [toStringAscii]

theorem indexOf_append_cons (c : Char) (pre post : List Char) (h : c ∉ pre) :
    indexOf c (pre ++ c :: post) = some pre.length := by
  induction pre with
  | nil => simp [indexOf]
  | cons x xs ih =>
    have hx : x ≠ c := fun e => h (by simp [e])
    have hxs : c ∉ xs := fun e => h (by simp [e])
    simp [indexOf, hx, ih hxs]

theorem detect_PROXY (xs : Buffer) :
    detect Locals.init (80 :: 82 :: 79 :: 88 :: 89 :: xs)
      = some { Locals.init with proxyVersion := some 1 } := by
  have h1 : ¬ (Locals.init.proxyVersion = none ∧ 12 ≤ (80 :: 82 :: 79 :: 88 :: 89 :: xs : Buffer).length
      ∧ List.take 12 (80 :: 82 :: 79 :: 88 :: 89 :: xs : Buffer) = v2Header) := by
    simp [v2Header]
  have h2 : Locals.init.proxyVersion = none ∧ 5 ≤ (80 :: 82 :: 79 :: 88 :: 89 :: xs : Buffer).length
      ∧ toStringAscii (List.take 5 (80 :: 82 :: 79 :: 88 :: 89 :: xs : Buffer)) = ['P', 'R', 'O', 'X', 'Y'] := by
    refine ⟨rfl, by simp, ?_⟩
    simp only [List.take_succ_cons, List.take_zero]
    decide
  unfold detect
  rw [if_neg h1, if_pos h2]

theorem stripHeaderLine_append (pre rest : Buffer) (h : (13 : Byte) ∉ pre) :
    stripHeaderLine (pre ++ 13 :: 10 :: rest) = rest := by
  induction pre with
  | nil => simp [stripHeaderLine]
  | cons x xs ih =>
    have hx : x ≠ 13 := fun e => h (by simp [e])
    have hxs : (13 : Byte) ∉ xs := fun e => h (by simp [e])
    cases xs with
    | nil => simp [stripHeaderLine, hx]
    | cons y ys =>
      have := ih hxs
      simp only [List.cons_append] at this ⊢
      simp [stripHeaderLine, hx, this]

theorem mem_toStringAscii_of_mem (pre : Buffer) (h : (13 : Byte) ∈ pre) :
    Char.ofNat 13 ∈ toStringAscii pre := by
  simp only [toStringAscii, List.mem_map]
  exact ⟨13, h, by decide⟩

/-- The first callback of a connection: the chunks are queued and the shim runs
`onReadable` with the `readable` notification recorded. -/
theorem run_callback_fresh (parse : Buffer → Option ProxyData) (o : Options) (n : Int)
    (od oe : Bool) (chunks : List Buffer) :
    run parse (connectionListener o n od oe) (callback chunks)
      = escape (onReadable parse
          { connectionListener o n od oe with
            queue := chunks, calls := [readable], history := some [readable] }) := by
  have hdata : ∀ (cs : List Buffer) (s : State),
      List.foldl (step parse) s (cs.map Event.data) = { s with queue := s.queue ++ cs } := by
    intro cs
    induction cs with
    | nil => intro s; simp
    | cons c cs ih => intro s; simp [step, ih]
  simp [run, callback, List.foldl_append, hdata, step, socketEmit, shim, connectionListener, readable]

theorem closes_append (a b : List Notification) : closes (a ++ b) = closes a + closes b := by
  simp [closes]

theorem replay_eq (h : List Notification) (s : State) :
    replay s h = { s with
      emitted := s.emitted ++ h
      openSockets := s.openSockets - closes h
      onendCalls := s.onendCalls + (if s.onend = true then ends h else 0) } := by
  induction h generalizing s with
  | nil => simp [replay, closes, ends]
  | cons n ns ih =>
    simp only [replay, realEmit]
    by_cases hc : n.event = "close" <;> by_cases he : n.event = "end" <;> by_cases ho : s.onend = true
      <;> simp [hc, he, ho, ih, closes, ends, List.countP_cons] <;> (try omega)

theorem restore_eq (s : State) (h : List Notification) (hs : s.history = some h) :
    restore s = .ok { s with
      emitIsShim := false
      restores := s.restores + 1
      history := none
      emitted := s.emitted ++ h
      openSockets := s.openSockets - closes h
      onendCalls := s.onendCalls + (if s.onend = true then ends h else 0) } := by
  simp [restore, hs, replay_eq]

theorem closes_data (cs : List Buffer) : closes (cs.map dataNotification) = 0 := by
  induction cs with
  | nil => rfl
  | cons c cs ih =>
    have hne : ¬ ((dataNotification c).event = "close") := by
      show ¬ ("data" = "close")
      decide
    simp only [closes, List.map_cons, List.countP_cons] at ih ⊢
    rw [ih]
    simp [hne]

theorem resolveConnection_eq (s : State) (l : Locals) (h : List Notification)
    (hs : s.history = some h) : resolveConnection s l = .ok (resolvedState s l h) := by
  have hne : ∀ c : Buffer, ¬ ((dataNotification c).event = "close") := fun c => by
    show ¬ ("data" = "close")
    decide
  unfold resolveConnection
  simp only []
  rw [restore_eq _ h (by cases hl : l.connectionData <;> simp [hs])]
  cases hl : l.connectionData <;> cases hd : s.ondata <;>
    cases hr : slice s.buf l.headerLength <;> cases hq : s.queue <;>
    simp [resolvedState, emitData, realEmit, hne, hl, hd, hr, hq]

theorem Frame.of_eq {s t : State} {b : Buffer} {q : List Buffer} {d : Option Locals}
    {p : List Buffer} (h : t = { s with buf := b, queue := q, detected := d, parsed := p }) :
    Frame s t := by
  refine ⟨b, q, d, p, [], ?_⟩
  rw [h]
  cases s with
  | mk _ _ history _ _ _ _ _ _ _ _ _ _ _ _ _ _ _ _ _ _ _ _ _ _ =>
    cases history <;> simp

theorem Frame.refl (s : State) : Frame s s := Frame.of_eq rfl

theorem Frame.trans {a b c : State} (h1 : Frame a b) (h2 : Frame b c) : Frame a c := by
  obtain ⟨_, _, _, _, ns1, rfl⟩ := h1
  obtain ⟨bb, q, d, p, ns2, rfl⟩ := h2
  refine ⟨bb, q, d, p, ns1 ++ ns2, ?_⟩
  cases a with
  | mk _ _ history _ _ _ _ _ _ _ _ _ _ _ _ _ _ _ _ _ _ _ _ _ _ =>
    cases history <;> simp

theorem Frame.shim {s t : State} (h : Frame s t) : t.emitIsShim = s.emitIsShim := by
  obtain ⟨_, _, _, _, _, rfl⟩ := h
  rfl

theorem Frame.history {s t : State} (h : Frame s t) (hs : s.history = some s.calls) :
    t.history = some t.calls := by
  obtain ⟨_, _, _, _, ns, rfl⟩ := h
  simp [hs]

theorem Frame.history_some {s t : State} (h : Frame s t) (hist : List Notification)
    (hs : s.history = some hist) : ∃ k, t.history = some k := by
  obtain ⟨_, _, _, _, ns, rfl⟩ := h
  exact ⟨hist ++ ns, by simp [hs]⟩

theorem emitData_shim (s : State) (c : Buffer) (h : List Notification)
    (he : s.emitIsShim = true) (hs : s.history = some h) :
    emitData s c = .ok { s with calls := s.calls ++ [dataNotification c],
                                history := some (h ++ [dataNotification c]) } := by
  cases s
  simp only at he hs
  subst he hs
  simp [emitData]

theorem parseHeader_frame (parse : Buffer → Option ProxyData) (s : State) (l : Locals) :
    (∀ t, parseHeader parse s l = .error t → Frame s t)
      ∧ (∀ t l1, parseHeader parse s l = .ok (t, l1) → Frame s t) := by
  have key : ∀ r, parseHeader parse s l = r →
      match r with
      | .error t => Frame s t
      | .ok (t, _) => Frame s t := by
    intro r hr
    subst hr
    unfold parseHeader
    by_cases h2 : l.proxyVersion = some 2
    · rw [if_pos h2]
      cases hh : l.headerLength with
      | none => exact Frame.refl s
      | some hl =>
        simp only []
        by_cases hle : hl ≤ s.buf.length
        · rw [if_pos hle]
          cases hp : parse (List.take hl s.buf) with
          | none => exact Frame.of_eq rfl
          | some pd => exact Frame.of_eq rfl
        · rw [if_neg hle]; exact Frame.refl s
    · rw [if_neg h2]
      by_cases h1 : l.proxyVersion = some 1
      · rw [if_pos h1]
        cases hi : indexOf (Char.ofNat 13) (toStringAscii s.buf) with
        | none => exact Frame.refl s
        | some crlf =>
          simp only []
          by_cases hc : 0 < crlf
          · rw [if_pos hc]; exact Frame.refl s
          · rw [if_neg hc]; exact Frame.refl s
      · rw [if_neg h1]; exact Frame.refl s
  exact ⟨fun t ht => key _ ht, fun t l1 ht => key _ ht⟩

theorem parseHeader_parsed (parse : Buffer → Option ProxyData) (s : State) (l : Locals) :
    (∀ t, parseHeader parse s l = .error t → ∃ p, t = { s with parsed := p })
      ∧ (∀ t l1, parseHeader parse s l = .ok (t, l1) → ∃ p, t = { s with parsed := p }) := by
  have key : ∀ r, parseHeader parse s l = r →
      match r with
      | .error t => ∃ p, t = { s with parsed := p }
      | .ok (t, _) => ∃ p, t = { s with parsed := p } := by
    intro r hr
    subst hr
    unfold parseHeader
    by_cases h2 : l.proxyVersion = some 2
    · rw [if_pos h2]
      cases hh : l.headerLength with
      | none => exact ⟨_, rfl⟩
      | some hl =>
        simp only []
        by_cases hle : hl ≤ s.buf.length
        · rw [if_pos hle]
          cases hp : parse (List.take hl s.buf) with
          | none => exact ⟨_, rfl⟩
          | some pd => exact ⟨_, rfl⟩
        · rw [if_neg hle]; exact ⟨_, rfl⟩
    · rw [if_neg h2]
      by_cases h1 : l.proxyVersion = some 1
      · rw [if_pos h1]
        cases hi : indexOf (Char.ofNat 13) (toStringAscii s.buf) with
        | none => exact ⟨_, rfl⟩
        | some crlf =>
          simp only []
          by_cases hc : 0 < crlf
          · rw [if_pos hc]; exact ⟨_, rfl⟩
          · rw [if_neg hc]; exact ⟨_, rfl⟩
      · rw [if_neg h1]; exact ⟨_, rfl⟩
  exact ⟨fun t ht => key _ ht, fun t l1 ht => key _ ht⟩

theorem afterRead_frame (s : State) (c : Buffer) (cs : List Buffer) (h : List Notification)
    (hs : s.history = some h) : Frame s (afterRead s c cs h) :=
  ⟨s.buf ++ c, cs, s.detected, s.parsed, [dataNotification c], by simp [afterRead, hs]⟩

theorem readLoop_cons (parse : Buffer → Option ProxyData) (c : Buffer) (cs : List Buffer)
    (s : State) (l : Locals) (h : List Notification) (he : s.emitIsShim = true)
    (hs : s.history = some h) :
    readLoop parse (c :: cs) s l
      = match detect l (afterRead s c cs h).buf with
        | none => readLoop parse cs (afterRead s c cs h) l
        | some l2 =>
          match parseHeader parse { afterRead s c cs h with detected := some l2 } l2 with
          | .error t => .error t
          | .ok (t, l3) =>
            if l3.proxyVersion = some (-1) ∨ l3.connectionData.isSome = true then
              resolveConnection t l3
            else readLoop parse cs t l3 := by
  simp only [readLoop]
  rw [emitData_shim { s with queue := cs } c h he hs]
  rfl

/-- What a run of the read loop can do while the shim is installed: leave
everything but the buffer, the queue, the logs of detection and the recorded
notifications alone, or resolve the connection once. -/
theorem readLoop_cases (parse : Buffer → Option ProxyData) :
    ∀ (cs : List Buffer) (s : State) (l : Locals) (h : List Notification),
      s.emitIsShim = true → s.history = some h →
      (∃ t, Frame s t ∧ (readLoop parse cs s l = .ok t ∨ readLoop parse cs s l = .error t))
      ∨ (∃ t l1 k, Frame s t ∧ t.history = some k
          ∧ readLoop parse cs s l = .ok (resolvedState t l1 k)) := by
  intro cs
  induction cs with
  | nil => intro s l h _ _; exact Or.inl ⟨s, Frame.refl s, Or.inl rfl⟩
  | cons c cs ih =>
    intro s l h he hs
    have f1 := afterRead_frame s c cs h hs
    have e1 := readLoop_cons parse c cs s l h he hs
    rw [e1]
    cases hd : detect l (afterRead s c cs h).buf with
    | none =>
      simp only []
      rcases ih (afterRead s c cs h) l _ he rfl with ⟨t, ft, ht⟩ | ⟨t, l1, k, ft, hk, ht⟩
      · exact Or.inl ⟨t, f1.trans ft, ht⟩
      · exact Or.inr ⟨t, l1, k, f1.trans ft, hk, ht⟩
    | some l2 =>
      simp only []
      have f2 : Frame s { afterRead s c cs h with detected := some l2 } :=
        f1.trans (Frame.of_eq rfl)
      obtain ⟨pe, po⟩ := parseHeader_frame parse { afterRead s c cs h with detected := some l2 } l2
      cases hp : parseHeader parse { afterRead s c cs h with detected := some l2 } l2 with
      | error t => exact Or.inl ⟨t, f2.trans (pe t hp), Or.inr rfl⟩
      | ok r =>
        obtain ⟨t, l3⟩ := r
        have f3 := f2.trans (po t l3 hp)
        obtain ⟨k, hk⟩ := f3.history_some h hs
        have het : t.emitIsShim = true := by rw [f3.shim]; exact he
        simp only []
        split
        · exact Or.inr ⟨t, l3, k, f3, hk, resolveConnection_eq t l3 k hk⟩
        · rcases ih t l3 k het hk with ⟨u, fu, hu⟩ | ⟨u, l4, k2, fu, hk2, hu⟩
          · exact Or.inl ⟨u, f3.trans fu, hu⟩
          · exact Or.inr ⟨u, l4, k2, f3.trans fu, hk2, hu⟩

/-! ## The invariant of a connection -/

theorem capturing_init (o : Options) (n : Int) (od oe : Bool) :
    Capturing n (connectionListener o n od oe) := by
  simp [Capturing, connectionListener]

theorem delivered_step (parse : Buffer → Option ProxyData) (n : Int) (s : State) (e : Event)
    (h : Delivered n s) : Delivered n (step parse s e) := by
  obtain ⟨h1, h2, h3, h4, h5, h6, h7, h8, h9, h10⟩ := h
  cases e with
  | emit m =>
    have hd : ¬ (m.event = "readable" ∧ s.destroyed = true) := by simp [h8]
    simp only [step, if_neg hd, socketEmit, h1, escape, realEmit]
    by_cases hc : m.event = "close"
    · simp [Delivered, hc, h1, h2, h3, h4, h5, h6, h7, h8, h9, h10, closes_append, closes]
      omega
    · simp [Delivered, hc, h1, h2, h3, h4, h5, h6, h7, h8, h9, h10, closes_append, closes]
  | data c => simp [step, Delivered, h1, h2, h3, h4, h5, h6, h7, h8, h9, h10]
  | deadline => simp [step, h9, Delivered, h1, h2, h3, h4, h5, h6, h7, h8, h10]

theorem socketEmit_shim (parse : Buffer → Option ProxyData) (s : State) (m : Notification)
    (h : List Notification) (he : s.emitIsShim = true) (hh : s.history = some h) :
    socketEmit parse s m
      = if m.event = "readable" then
          onReadable parse { s with calls := s.calls ++ [m], history := some (h ++ [m]) }
        else .ok { s with calls := s.calls ++ [m], history := some (h ++ [m]) } := by
  cases s
  simp only at he hh
  subst he hh
  simp [socketEmit, shim]

theorem capturing_step (parse : Buffer → Option ProxyData) (n : Int) (s : State) (e : Event)
    (h : Capturing n s) : Inv n (step parse s e) := by
  obtain ⟨h1, h2, h3, h4, h5, h6, h7, h8, h9⟩ := h
  cases e with
  | data c => left; simp [step, Capturing, h1, h2, h3, h4, h5, h6, h7, h8]; exact h9
  | deadline =>
    left
    by_cases hp : s.timerPending = true
    · obtain ⟨ht, h0⟩ := h9 hp
      simp [step, hp, timeoutCallback, ht, Capturing, h1, h2, h3, h4, h5, h6, h0]
    · simp only [step, if_neg hp]
      exact ⟨h1, h2, h3, h4, h5, h6, h7, h8, h9⟩
  | emit m =>
    by_cases hd : m.event = "readable" ∧ s.destroyed = true
    · left
      simp only [step, if_pos hd]
      exact ⟨h1, h2, h3, h4, h5, h6, h7, h8, h9⟩
    · simp only [step, if_neg hd]
      rw [socketEmit_shim parse s m s.calls h1 h2]
      by_cases hr : m.event = "readable"
      · have hnd : s.destroyed = false := by
          cases hdd : s.destroyed
          · rfl
          · exact absurd ⟨hr, hdd⟩ hd
        have h0 : s.timerDestroys = 0 := by
          have : ¬ s.timerDestroys = 1 := fun e => by
            have := h8.mpr e; simp [hnd] at this
          omega
        simp only [if_pos hr, onReadable]
        have hcap : ({ s with calls := s.calls ++ [m], history := some (s.calls ++ [m]) } : State).history
            = some ({ s with calls := s.calls ++ [m], history := some (s.calls ++ [m]) } : State).calls :=
          rfl
        rcases readLoop_cases parse s.queue
          { s with calls := s.calls ++ [m], history := some (s.calls ++ [m]) } Locals.init
          (s.calls ++ [m]) h1 rfl
          with ⟨t, ft, ht | ht⟩ | ⟨t, l1, k, ft, hk, ht⟩
        · left
          rw [ht]
          have hh := ft.history hcap
          obtain ⟨_, _, _, _, _, rfl⟩ := ft
          exact ⟨h1, hh, h3, h4, h5, h6, h7, h8, fun hp => by cases hp⟩
        · left
          rw [ht]
          have hh := ft.history hcap
          obtain ⟨_, _, _, _, _, rfl⟩ := ft
          exact ⟨h1, hh, h3, h4, h5, h6, h7, h8, h9⟩
        · right
          rw [ht]
          have hh := ft.history hcap
          rw [hk] at hh
          cases hh
          obtain ⟨_, _, _, _, ns, rfl⟩ := ft
          simp only [escape]
          refine ⟨rfl, rfl, ?_, ?_, ?_, ?_, h0, hnd, rfl, rfl⟩
          · simp [resolvedState, h3]
          · simp [resolvedState, h4]
          · simp [resolvedState, h5]
          · simp only [resolvedState, closes_append, closes_data, h6, h0]
            push_cast
            omega
      · left
        simp [if_neg hr, escape, Capturing, h1, h3, h4, h5, h6, h7, h8]
        exact h9

theorem inv_step (parse : Buffer → Option ProxyData) (n : Int) (s : State) (e : Event)
    (h : Inv n s) : Inv n (step parse s e) := by
  rcases h with h | h
  · exact capturing_step parse n s e h
  · exact Or.inr (delivered_step parse n s e h)

theorem inv_run (parse : Buffer → Option ProxyData) (n : Int) (evs : List Event) :
    ∀ s, Inv n s → Inv n (run parse s evs) := by
  induction evs with
  | nil => intro s h; exact h
  | cons e es ih => intro s h; exact ih _ (inv_step parse n s e h)

theorem inv_reachable (parse : Buffer → Option ProxyData) (o : Options) (n : Int) (od oe : Bool)
    (evs : List Event) : Inv n (run parse (connectionListener o n od oe) evs) :=
  inv_run parse n evs _ (Or.inl (capturing_init o n od oe))

theorem run_append (parse : Buffer → Option ProxyData) (s : State) (a b : List Event) :
    run parse s (a ++ b) = run parse (run parse s a) b := by
  simp [run, List.foldl_append]

/-! ## One chunk in the first callback -/

theorem readLoop_first (parse : Buffer → Option ProxyData) (o : Options) (n : Int)
    (od oe : Bool) (B : Buffer) :
    readLoop parse [B] (firstCall o n od oe [B]) Locals.init
      = match detect Locals.init B with
        | none => .ok (firstRead o n od oe B)
        | some l2 =>
          match parseHeader parse { firstRead o n od oe B with detected := some l2 } l2 with
          | .error t => .error t
          | .ok (t, l3) =>
            if l3.proxyVersion = some (-1) ∨ l3.connectionData.isSome = true then
              resolveConnection t l3
            else .ok t := by
  simp only [readLoop]
  rw [emitData_shim { firstCall o n od oe [B] with queue := [] } B [readable] rfl rfl]
  rfl

theorem run_callback_first (parse : Buffer → Option ProxyData) (o : Options) (n : Int)
    (od oe : Bool) (chunks : List Buffer) :
    run parse (connectionListener o n od oe) (callback chunks)
      = escape (onReadable parse (firstCall o n od oe chunks)) :=
  run_callback_fresh parse o n od oe chunks

theorem parseHeader_v1 (parse : Buffer → Option ProxyData) (s : State) (l : Locals) (i : Nat)
    (hv : l.proxyVersion = some 1)
    (hi : indexOf (Char.ofNat 13) (toStringAscii s.buf) = some i) (hpos : 0 < i) :
    parseHeader parse s l
      = .ok (s, { l with headerLength := some (i + 2),
                         connectionData := some (v1ConnectionData s.buf (i + 2)) }) := by
  have h2 : ¬ l.proxyVersion = some 2 := by rw [hv]; decide
  unfold parseHeader
  rw [if_neg h2, if_pos hv, hi]
  simp only []
  rw [if_pos hpos]

theorem parseHeader_v1_none (parse : Buffer → Option ProxyData) (s : State) (l : Locals)
    (hv : l.proxyVersion = some 1)
    (hi : indexOf (Char.ofNat 13) (toStringAscii s.buf) = none) :
    parseHeader parse s l = .ok (s, l) := by
  have h2 : ¬ l.proxyVersion = some 2 := by rw [hv]; decide
  unfold parseHeader
  rw [if_neg h2, if_pos hv, hi]

theorem parseHeader_none (parse : Buffer → Option ProxyData) (s : State) (l : Locals)
    (hv : l.proxyVersion = some (-1)) : parseHeader parse s l = .ok (s, l) := by
  have h2 : ¬ l.proxyVersion = some 2 := by rw [hv]; decide
  have h1 : ¬ l.proxyVersion = some 1 := by rw [hv]; decide
  unfold parseHeader
  rw [if_neg h2, if_neg h1]

theorem parseHeader_v2_short (parse : Buffer → Option ProxyData) (s : State) (l : Locals)
    (hl : Nat) (hv : l.proxyVersion = some 2) (hh : l.headerLength = some hl)
    (hlt : s.buf.length < hl) : parseHeader parse s l = .ok (s, l) := by
  unfold parseHeader
  rw [if_pos hv, hh]
  simp only []
  rw [if_neg (by omega)]

theorem parseHeader_v2_ok (parse : Buffer → Option ProxyData) (s : State) (l : Locals)
    (hl : Nat) (d : ProxyData) (hv : l.proxyVersion = some 2) (hh : l.headerLength = some hl)
    (hle : hl ≤ s.buf.length) (hp : parse (s.buf.take hl) = some d) :
    parseHeader parse s l
      = .ok ({ s with parsed := s.parsed ++ [s.buf.take hl] },
             { l with connectionData := some (v2ConnectionData d) }) := by
  unfold parseHeader
  rw [if_pos hv, hh]
  simp only []
  rw [if_pos hle, hp]

theorem parseHeader_v2_raise (parse : Buffer → Option ProxyData) (s : State) (l : Locals)
    (hl : Nat) (hv : l.proxyVersion = some 2) (hh : l.headerLength = some hl)
    (hle : hl ≤ s.buf.length) (hp : parse (s.buf.take hl) = none) :
    parseHeader parse s l = .error { s with parsed := s.parsed ++ [s.buf.take hl] } := by
  unfold parseHeader
  rw [if_pos hv, hh]
  simp only []
  rw [if_pos hle, hp]

theorem detect_v2 (B : Buffer) (h12 : 12 ≤ B.length) (hsig : B.take 12 = v2Header) :
    detect Locals.init B
      = some { Locals.init with proxyVersion := some 2, headerLength := v2HeaderLength B } := by
  unfold detect
  rw [if_pos ⟨rfl, h12, hsig⟩]

theorem v2HeaderLength_eq (B : Buffer) (h16 : 16 ≤ B.length) :
    v2HeaderLength B = some (16 + 256 * (B.getD 14 0).val + (B.getD 15 0).val) := by
  have h14 : B.get? 14 = some (B.getD 14 0) := by
    rw [List.getD_eq_getElem?_getD, List.get?_eq_getElem?]
    rw [List.getElem?_eq_getElem (by omega)]; rfl
  have h15 : B.get? 15 = some (B.getD 15 0) := by
    rw [List.getD_eq_getElem?_getD, List.get?_eq_getElem?]
    rw [List.getElem?_eq_getElem (by omega)]; rfl
  unfold v2HeaderLength
  rw [h14, h15]
  simp only [Nat.shiftLeft_eq]
  congr 1
  omega

/-- One chunk that resolves the connection in the first callback. -/
theorem first_chunk_resolves (parse : Buffer → Option ProxyData) (o : Options) (n : Int)
    (od oe : Bool) (B : Buffer) (l1 l2 : Locals) (t : State)
    (hd : detect Locals.init B = some l1)
    (hp : parseHeader parse
      { firstRead o n od oe B with detected := some l1 } l1 = .ok (t, l2))
    (hr : l2.proxyVersion = some (-1) ∨ l2.connectionData.isSome = true) :
    run parse (connectionListener o n od oe) (callback [B])
      = { resolvedState t l2 [readable, dataNotification B] with
          timerPending := false, timeoutTimer := false } := by
  have ht : t.history = some [readable, dataNotification B] := by
    obtain ⟨p, rfl⟩ := (parseHeader_parsed parse _ l1).2 _ l2 hp
    rfl
  have hq : (firstCall o n od oe [B]).queue = [B] := rfl
  rw [run_callback_first, onReadable, hq, readLoop_first]
  simp only [hd, hp, if_pos hr, resolveConnection_eq t l2 _ ht, escape]

/-- One chunk that leaves the connection unresolved in the first callback. -/
theorem first_chunk_waits (parse : Buffer → Option ProxyData) (o : Options) (n : Int)
    (od oe : Bool) (B : Buffer) (l1 l2 : Locals) (t : State)
    (hd : detect Locals.init B = some l1)
    (hp : parseHeader parse
      { firstRead o n od oe B with detected := some l1 } l1 = .ok (t, l2))
    (hr : ¬ (l2.proxyVersion = some (-1) ∨ l2.connectionData.isSome = true)) :
    run parse (connectionListener o n od oe) (callback [B])
      = { t with timerPending := false, timeoutTimer := false } := by
  have hq : (firstCall o n od oe [B]).queue = [B] := rfl
  rw [run_callback_first, onReadable, hq, readLoop_first]
  simp only [hd, hp, if_neg hr, escape]

/-- One chunk on which the parser raises in the first callback. -/
theorem first_chunk_raises (parse : Buffer → Option ProxyData) (o : Options) (n : Int)
    (od oe : Bool) (B : Buffer) (l1 : Locals) (t : State)
    (hd : detect Locals.init B = some l1)
    (hp : parseHeader parse
      { firstRead o n od oe B with detected := some l1 } l1 = .error t) :
    run parse (connectionListener o n od oe) (callback [B])
      = { t with uncaught := t.uncaught + 1 } := by
  have hq : (firstCall o n od oe [B]).queue = [B] := rfl
  rw [run_callback_first, onReadable, hq, readLoop_first]
  simp only [hd, hp, escape]

/-- One chunk with too few bytes for a decision in the first callback. -/
theorem first_chunk_undetermined (parse : Buffer → Option ProxyData) (o : Options) (n : Int)
    (od oe : Bool) (B : Buffer) (hd : detect Locals.init B = none) :
    run parse (connectionListener o n od oe) (callback [B])
      = { firstRead o n od oe B with timerPending := false, timeoutTimer := false } := by
  have hq : (firstCall o n od oe [B]).queue = [B] := rfl
  rw [run_callback_first, onReadable, hq, readLoop_first]
  simp only [hd, escape]

theorem armed_step (parse : Buffer → Option ProxyData) (n : Int) (s : State) (e : Event)
    (h : Armed n s) (hq : Quiet e = true) : Armed n (step parse s e) := by
  obtain ⟨⟨h1, h2, h3, h4, h5, h6, h7, h8, h9⟩, hp⟩ := h
  cases e with
  | deadline => simp [Quiet] at hq
  | data c =>
    refine ⟨⟨h1, h2, h3, h4, h5, h6, h7, h8, h9⟩, hp⟩
  | emit m =>
    have hr : ¬ m.event = "readable" := by simpa [Quiet] using hq
    have hd : ¬ (m.event = "readable" ∧ s.destroyed = true) := fun h => hr h.1
    simp only [step, if_neg hd]
    rw [socketEmit_shim parse s m s.calls h1 h2, if_neg hr]
    exact ⟨⟨h1, rfl, h3, h4, h5, h6, h7, h8, h9⟩, hp⟩

theorem armed_run (parse : Buffer → Option ProxyData) (n : Int) (evs : List Event) :
    ∀ s, Armed n s → (∀ e ∈ evs, Quiet e = true) → Armed n (run parse s evs) := by
  induction evs with
  | nil => intro s h _; exact h
  | cons e es ih =>
    intro s h hq
    exact ih _ (armed_step parse n s e h (hq e (by simp))) (fun e' he' => hq e' (by simp [he']))

theorem armed_init (o : Options) (n : Int) (od oe : Bool) :
    Armed n (connectionListener o n od oe) :=
  ⟨capturing_init o n od oe, rfl⟩

theorem armed_deadline (parse : Buffer → Option ProxyData) (n : Int) (s : State) (h : Armed n s) :
    Capturing n (step parse s .deadline) ∧ (step parse s .deadline).destroyed = true
      ∧ (step parse s .deadline).timerDestroys = 1 := by
  obtain ⟨⟨h1, h2, h3, h4, h5, h6, h7, h8, h9⟩, hp⟩ := h
  obtain ⟨ht, h0⟩ := h9 hp
  simp [step, hp, timeoutCallback, ht, Capturing, h1, h2, h3, h4, h5, h6, h0]

theorem destroyed_step (parse : Buffer → Option ProxyData) (n : Int) (s : State) (e : Event)
    (h : Capturing n s) (hd : s.destroyed = true) :
    Capturing n (step parse s e) ∧ (step parse s e).destroyed = true := by
  obtain ⟨h1, h2, h3, h4, h5, h6, h7, h8, h9⟩ := h
  have h1' : s.timerDestroys = 1 := h8.mp hd
  have hp : ¬ s.timerPending = true := fun hp => by
    have := (h9 hp).2; omega
  cases e with
  | deadline =>
    simp only [step, if_neg hp]
    exact ⟨⟨h1, h2, h3, h4, h5, h6, h7, h8, h9⟩, hd⟩
  | data c => exact ⟨⟨h1, h2, h3, h4, h5, h6, h7, h8, h9⟩, hd⟩
  | emit m =>
    by_cases hr : m.event = "readable"
    · simp only [step, if_pos (And.intro hr hd)]
      exact ⟨⟨h1, h2, h3, h4, h5, h6, h7, h8, h9⟩, hd⟩
    · have hnd : ¬ (m.event = "readable" ∧ s.destroyed = true) := fun h => hr h.1
      simp only [step, if_neg hnd]
      rw [socketEmit_shim parse s m s.calls h1 h2, if_neg hr]
      exact ⟨⟨h1, rfl, h3, h4, h5, h6, h7, h8, h9⟩, hd⟩

theorem destroyed_run (parse : Buffer → Option ProxyData) (n : Int) (evs : List Event) :
    ∀ s, Capturing n s → s.destroyed = true →
      Capturing n (run parse s evs) ∧ (run parse s evs).destroyed = true := by
  induction evs with
  | nil => intro s h hd; exact ⟨h, hd⟩
  | cons e es ih =>
    intro s h hd
    obtain ⟨h', hd'⟩ := destroyed_step parse n s e h hd
    exact ih _ h' hd'

theorem delivered_run (parse : Buffer → Option ProxyData) (n : Int) (evs : List Event) :
    ∀ s, Delivered n s →
      Delivered n (run parse s evs) ∧ (run parse s evs).calls = s.calls ++ notifications evs := by
  induction evs with
  | nil => intro s h; exact ⟨h, by simp [run, notifications]⟩
  | cons e es ih =>
    intro s h
    obtain ⟨h', hc⟩ := ih _ (delivered_step parse n s e h)
    refine ⟨h', ?_⟩
    show (run parse (step parse s e) es).calls = _
    rw [hc]
    cases e with
    | deadline => simp [step, h.2.2.2.2.2.2.2.2.1, notifications]
    | data c => simp [step, notifications]
    | emit m =>
      have hd : ¬ (m.event = "readable" ∧ s.destroyed = true) := by simp [h.2.2.2.2.2.2.2.1]
      have hcalls : (step parse s (.emit m)).calls = s.calls ++ [m] := by
        simp only [step, if_neg hd, socketEmit, h.1, escape, realEmit]
        by_cases hcl : m.event = "close" <;> simp [hcl]
      rw [hcalls]
      simp [notifications]

theorem run_data (parse : Buffer → Option ProxyData) (cs : List Buffer) :
    ∀ s : State, run parse s (cs.map Event.data) = { s with queue := s.queue ++ cs } := by
  induction cs with
  | nil => intro s; simp [run]
  | cons c cs ih =>
    intro s
    have := ih (step parse s (.data c))
    simp only [run, List.map_cons, List.foldl_cons] at this ⊢
    rw [this]
    simp [step]

theorem prefix_take_eq {P B : Buffer} (h : P <+: B) (k : Nat) (hk : k ≤ P.length) :
    P.take k = B.take k := by
  obtain ⟨t, rfl⟩ := h
  rw [List.take_append_of_le_length hk]

theorem detect_plain (B P : Buffer) (hP : P <+: B) (hv2 : B.take 12 ≠ v2Header)
    (hv1 : toStringAscii (B.take 5) ≠ ['P', 'R', 'O', 'X', 'Y']) :
    detect Locals.init P
      = if 12 ≤ P.length then some { Locals.init with proxyVersion := some (-1) } else none := by
  have h2 : ¬ (Locals.init.proxyVersion = none ∧ 12 ≤ P.length ∧ P.take 12 = v2Header) :=
    fun h => hv2 (by rw [← prefix_take_eq hP 12 h.2.1]; exact h.2.2)
  have h1 : ¬ (Locals.init.proxyVersion = none ∧ 5 ≤ P.length
      ∧ toStringAscii (P.take 5) = ['P', 'R', 'O', 'X', 'Y']) :=
    fun h => hv1 (by rw [← prefix_take_eq hP 5 h.2.1]; exact h.2.2)
  unfold detect
  rw [if_neg h2, if_neg h1]

theorem readLoop_plain (parse : Buffer → Option ProxyData) (B : Buffer)
    (hv2 : B.take 12 ≠ v2Header) (hv1 : toStringAscii (B.take 5) ≠ ['P', 'R', 'O', 'X', 'Y']) :
    ∀ (cs : List Buffer) (s : State) (h : List Notification) (done : List Buffer),
      s.emitIsShim = true → s.history = some h → s.buf = done.flatten →
      done.flatten.length < 12 → (done ++ cs).flatten <+: B → s.queue = cs →
      ((done ++ cs).flatten.length < 12
          ∧ ∃ t, Frame s t ∧ t.buf = (done ++ cs).flatten ∧ t.queue = []
            ∧ readLoop parse cs s Locals.init = .ok t)
        ∨ (∃ pre c post t k, cs = pre ++ c :: post ∧ (done ++ pre).flatten.length < 12
          ∧ 12 ≤ (done ++ pre ++ [c]).flatten.length
          ∧ Frame s t ∧ t.history = some k ∧ t.buf = (done ++ pre ++ [c]).flatten ∧ t.queue = post
          ∧ readLoop parse cs s Locals.init
            = .ok (resolvedState t { Locals.init with proxyVersion := some (-1) } k)) := by
  intro cs
  induction cs with
  | nil =>
    intro s h done _ _ hb hlt _ hq
    left
    refine ⟨by simpa using hlt, s, Frame.refl s, by simpa using hb, hq, rfl⟩
  | cons c cs ih =>
    intro s h done he hs hb hlt hpre hq
    have f1 := afterRead_frame s c cs h hs
    have hab : (afterRead s c cs h).buf = (done ++ [c]).flatten := by
      show s.buf ++ c = _
      rw [hb]
      simp
    have hpre1 : (afterRead s c cs h).buf <+: B := by
      obtain ⟨t, ht⟩ := hpre
      refine ⟨cs.flatten ++ t, ?_⟩
      rw [hab, ← ht]
      simp
    have hd := detect_plain B _ hpre1 hv2 hv1
    rw [readLoop_cons parse c cs s Locals.init h he hs, hd]
    by_cases h12 : 12 ≤ (afterRead s c cs h).buf.length
    · right
      rw [if_pos h12]
      simp only []
      rw [parseHeader_none parse _ _ rfl]
      simp only []
      rw [if_pos (Or.inl trivial)]
      refine ⟨[], c, cs, _, _, rfl, by simpa using hlt, ?_, f1.trans (Frame.of_eq rfl), rfl, ?_, rfl,
        resolveConnection_eq _ _ _ rfl⟩
      · rw [hab] at h12
        simpa using h12
      · show (afterRead s c cs h).buf = _
        rw [hab]
        simp
    · rw [if_neg h12]
      simp only []
      have hlt1 : (done ++ [c]).flatten.length < 12 := by
        rw [← hab]
        omega
      rcases ih (afterRead s c cs h) (h ++ [dataNotification c]) (done ++ [c]) he rfl hab hlt1
          (by simpa using hpre) rfl
        with ⟨hl, t, ft, htb, htq, hr⟩ | ⟨pre, c2, post, t, k, hcs, hl, hge, ft, hk, htb, htq, hr⟩
      · left
        exact ⟨by simpa using hl, t, f1.trans ft, by simpa using htb, htq, hr⟩
      · right
        refine ⟨c :: pre, c2, post, t, k, by rw [hcs]; rfl, by simpa using hl, by simpa using hge,
          f1.trans ft, hk, by simpa using htb, htq, hr⟩

theorem consumerStream_resolvedState (t : State) (l : Locals) (h : List Notification) :
    consumerStream (resolvedState t l h)
      = t.ondataCalls.flatten ++ slice t.buf l.headerLength ++ t.queue.flatten := by
  cases hd : t.ondata <;> cases hr : slice t.buf l.headerLength <;> cases hq : t.queue <;>
    simp [consumerStream, resolvedState, hd, hr, hq]

theorem waiting_callback (parse : Buffer → Option ProxyData) (B : Buffer) (done g : List Buffer)
    (s : State) (hv2 : B.take 12 ≠ v2Header)
    (hv1 : toStringAscii (B.take 5) ≠ ['P', 'R', 'O', 'X', 'Y'])
    (hw : Waiting s done) (hpre : (done ++ g).flatten <+: B) :
    Waiting (run parse s (callback g)) (done ++ g)
      ∨ PassedThrough (run parse s (callback g)) (done ++ g) := by
  obtain ⟨h1, ⟨h, h2⟩, h3, h4, h5, h6, h7, h8, h9, h10, h11⟩ := hw
  have hnd : ¬ (readable.event = "readable" ∧ s.destroyed = true) := by simp [h3]
  have e1 : run parse s (callback g) = step parse { s with queue := g } (.emit readable) := by
    rw [callback, run_append, run_data, h4]
    rfl
  have hrun : run parse s (callback g)
      = escape (onReadable parse
          { s with queue := g, calls := s.calls ++ [readable], history := some (h ++ [readable]) }) := by
    rw [e1]
    simp only [step]
    rw [if_neg (by simpa using hnd), socketEmit_shim parse { s with queue := g } readable h h1 h2,
      if_pos (show readable.event = "readable" from rfl)]
  rw [hrun, onReadable]
  rcases readLoop_plain parse B hv2 hv1 g
      { s with queue := g, calls := s.calls ++ [readable], history := some (h ++ [readable]) }
      (h ++ [readable]) done h1 rfl h5 h6 hpre rfl
    with ⟨hl, t, ft, htb, htq, hr⟩ | ⟨pre, c, post, t, k, hg, hl, hge, ft, hk, htb, htq, hr⟩
  · left
    rw [hr]
    obtain ⟨k, hk⟩ := ft.history_some (h ++ [readable]) rfl
    obtain ⟨b, q, d, p, ns, rfl⟩ := ft
    exact ⟨h1, ⟨k, hk⟩, h3, htq, htb, hl, h7, h8, h9, h10, h11⟩
  · right
    rw [hr]
    have hcs := consumerStream_resolvedState t { Locals.init with proxyVersion := some (-1) } k
    obtain ⟨b, q, d, p, ns, rfl⟩ := ft
    have htb' : b = (done ++ pre ++ [c]).flatten := htb
    have htq' : post = q := htq.symm
    subst htb' htq'
    unfold PassedThrough
    refine ⟨rfl, h3, ?_, rfl, ?_, ?_, done ++ pre, c, post, ?_, ?_, rfl, hl, hge⟩
    · show s.proxiedConnections + 1 = 1
      rw [h7]
    · show s.connectionData = none
      exact h10
    · show consumerStream (resolvedState _ { Locals.init with proxyVersion := some (-1) } k) = _
      rw [hcs]
      show s.ondataCalls.flatten ++ List.drop 0 (done ++ pre ++ [c]).flatten ++ post.flatten = _
      rw [h9, hg]
      simp
    · rw [hg]
      simp
    · show s.unshifted ++ [List.drop 0 (done ++ pre ++ [c]).flatten] = _
      rw [h8]
      simp

theorem passedThrough_callback (parse : Buffer → Option ProxyData) (arrived g : List Buffer)
    (s : State) (hp : PassedThrough s arrived) :
    PassedThrough (run parse s (callback g)) (arrived ++ g) := by
  obtain ⟨h1, h2, h3, h4, h5, h6, pre, c, post, h7, h8, h9, h10, h11⟩ := hp
  have hnd : ¬ (readable.event = "readable" ∧ s.destroyed = true) := by simp [h2]
  have e1 : run parse s (callback g)
      = step parse { s with queue := s.queue ++ g } (.emit readable) := by
    rw [callback, run_append, run_data]
    rfl
  have hrun : run parse s (callback g)
      = realEmit { s with queue := s.queue ++ g, calls := s.calls ++ [readable] } readable := by
    rw [e1]
    simp only [step]
    rw [if_neg (by simpa using hnd)]
    simp only [socketEmit]
    rw [if_neg (by simp [h1])]
    rfl
  rw [hrun]
  have hne : ¬ (readable.event = "close") := by decide
  simp only [realEmit, if_neg hne]
  refine ⟨h1, h2, h3, h4, h5, ?_, pre, c, post ++ g, ?_, h8, h9, h10, h11⟩
  · simp only [consumerStream] at h6 ⊢
    show s.ondataCalls.flatten ++ (s.queue ++ g).flatten = (arrived ++ g).flatten
    rw [List.flatten_append, List.flatten_append, ← h6]
    simp
  · rw [h7]
    simp

theorem schedule_plain (parse : Buffer → Option ProxyData) (B : Buffer)
    (hv2 : B.take 12 ≠ v2Header) (hv1 : toStringAscii (B.take 5) ≠ ['P', 'R', 'O', 'X', 'Y']) :
    ∀ (groups : List (List Buffer)) (s : State) (done : List Buffer),
      Waiting s done ∨ PassedThrough s done → (done ++ groups.flatten).flatten = B →
      Waiting (run parse s (schedule groups)) (done ++ groups.flatten)
        ∨ PassedThrough (run parse s (schedule groups)) (done ++ groups.flatten) := by
  intro groups
  induction groups with
  | nil =>
    intro s done h _
    simpa [schedule, run] using h
  | cons g gs ih =>
    intro s done h hB
    have hB' : (done ++ g ++ gs.flatten).flatten = B := by rw [← hB]; simp
    have hpre : (done ++ g).flatten <+: B := ⟨gs.flatten.flatten, by rw [← hB']; simp⟩
    have e : done ++ (g :: gs).flatten = done ++ g ++ gs.flatten := by simp
    simp only [schedule]
    rw [run_append, e]
    rcases h with h | h
    · exact ih _ _ (waiting_callback parse B done g s hv2 hv1 h hpre) hB'
    · exact ih _ _ (Or.inr (passedThrough_callback parse done g s h)) hB'

/-! ## The claims -/

theorem indexOf_header (tail rest : Buffer) (hcr : Char.ofNat 13 ∉ toStringAscii tail) :
    indexOf (Char.ofNat 13) (toStringAscii (bytes "PROXY" ++ tail ++ [13, 10] ++ rest))
      = some (tail.length + 5) := by
  have h5 : Char.ofNat 13 ∉ toStringAscii (bytes "PROXY" ++ tail) := by
    rw [toStringAscii_append, List.mem_append]
    rintro (h | h)
    · revert h; decide
    · exact hcr h
  have := indexOf_append_cons (Char.ofNat 13) _ (toStringAscii (10 :: rest)) h5
  rw [toStringAscii_length] at this
  have e : toStringAscii (bytes "PROXY" ++ tail ++ [13, 10] ++ rest)
      = toStringAscii (bytes "PROXY" ++ tail) ++ Char.ofNat 13 :: toStringAscii (10 :: rest) := by
    simp only [toStringAscii, List.map_append, List.map_cons, List.append_assoc, List.cons_append,
      List.nil_append, List.map_nil]
    rfl
  rw [e, this]
  simp [bytes_PROXY]

/-- C1 (counterexample): two buffers that begin with `PROXY` and contain `\r\n`.
In the first the header line `PROXY TCP4 1.1.1.1 2.2.2.2 1 2\rX` holds a carriage
return that no line feed follows: what is pushed back is `\r\nGET`, not the
buffer with its header line removed (`GET`). In the second the header line
`PROXY TCP4 1.2.3.4` ends with its 3rd field, `1.2.3.4`, and `sourceAddress` is
that field followed by `\r\n`. -/
theorem c1_lone_carriage_return :
    (bytes "PROXY TCP4 1.1.1.1 2.2.2.2 1 2\rX\r\nGET").take 5 = bytes "PROXY"
      ∧ stripHeaderLine (bytes "PROXY TCP4 1.1.1.1 2.2.2.2 1 2\rX\r\nGET") = bytes "GET"
      ∧ (run ipv4Parser fresh (callback [bytes "PROXY TCP4 1.1.1.1 2.2.2.2 1 2\rX\r\nGET"])).unshifted
          = [bytes "\r\nGET"]
      ∧ (bytes "PROXY TCP4 1.2.3.4\r\nGET").take 5 = bytes "PROXY"
      ∧ (split ' ' (toStringAscii (headerLine (bytes "PROXY TCP4 1.2.3.4\r\nGET"))))[2]?
          = some "1.2.3.4".toList
      ∧ ((run ipv4Parser fresh (callback [bytes "PROXY TCP4 1.2.3.4\r\nGET"])).connectionData.map
          fun cd => cd.sourceAddress) = some (some "1.2.3.4\r\n".toList) := by
  decide

/-- C1 (amended): a first and only chunk that begins with `PROXY` and whose first
carriage return, as `toString('ascii')` decodes the bytes, is the one of the
terminating `\r\n`, resolves the connection as v1; `sourceAddress` is the 3rd and
`sourcePort` the `parseInt` of the 5th space-delimited field of the decoded header,
terminator included, and exactly the bytes after the header line are pushed back. -/
theorem c1_v1_header (parse : Buffer → Option ProxyData) (o : Options) (n : Int)
    (od oe : Bool) (tail rest : Buffer) (hcr : Char.ofNat 13 ∉ toStringAscii tail) :
    (run parse (connectionListener o n od oe)
        (callback [bytes "PROXY" ++ tail ++ [13, 10] ++ rest])).version = some 1
      ∧ (run parse (connectionListener o n od oe)
        (callback [bytes "PROXY" ++ tail ++ [13, 10] ++ rest])).proxiedConnections = 1
      ∧ (run parse (connectionListener o n od oe)
        (callback [bytes "PROXY" ++ tail ++ [13, 10] ++ rest])).connectionData
          = some { sourceAddress := (split ' ' (toStringAscii (bytes "PROXY" ++ tail ++ [13, 10])))[2]?,
                   sourcePort := parseInt (split ' ' (toStringAscii (bytes "PROXY" ++ tail ++ [13, 10])))[4]? }
      ∧ (run parse (connectionListener o n od oe)
        (callback [bytes "PROXY" ++ tail ++ [13, 10] ++ rest])).unshifted = [rest]
      ∧ stripHeaderLine (bytes "PROXY" ++ tail ++ [13, 10] ++ rest) = rest := by
  have hd : detect Locals.init (bytes "PROXY" ++ tail ++ [13, 10] ++ rest)
      = some { Locals.init with proxyVersion := some 1 } := by
    rw [bytes_PROXY]; exact detect_PROXY _
  have hlen : (bytes "PROXY" ++ tail ++ [13, 10]).length = tail.length + 5 + 2 := by
    simp [bytes_PROXY]
  have hrun := first_chunk_resolves parse o n od oe _ _ _ _ hd
    (parseHeader_v1 parse _ _ (tail.length + 5) rfl (indexOf_header tail rest hcr) (by omega))
    (Or.inr rfl)
  have h13 : (13 : Byte) ∉ bytes "PROXY" ++ tail := by
    rw [List.mem_append]
    rintro (h | h)
    · revert h; decide
    · exact hcr (mem_toStringAscii_of_mem tail h)
  rw [hrun]
  refine ⟨rfl, rfl, ?_, ?_, ?_⟩
  · show some (v1ConnectionData (bytes "PROXY" ++ tail ++ [13, 10] ++ rest) (tail.length + 5 + 2)) = _
    simp only [v1ConnectionData]
    rw [← hlen, List.take_left' rfl]
  · show [] ++ [List.drop (tail.length + 5 + 2) (bytes "PROXY" ++ tail ++ [13, 10] ++ rest)] = _
    rw [← hlen, List.drop_left' rfl]
    rfl
  · have := stripHeaderLine_append (bytes "PROXY" ++ tail) rest h13
    simpa using this

/-- C1 (witness): Scenario A of the specification. -/
theorem c1_v1_header_witness :
    Char.ofNat 13 ∉ toStringAscii (bytes " TCP4 192.168.0.1 192.168.0.11 56324 443")
      ∧ (run ipv4Parser fresh (callback [bytes "PROXY" ++ bytes " TCP4 192.168.0.1 192.168.0.11 56324 443"
            ++ [13, 10] ++ bytes "GET / HTTP/1.1\r\n"])).connectionData
          = some { sourceAddress := some "192.168.0.1".toList, sourcePort := some (.finite 56324) }
      ∧ (run ipv4Parser fresh (callback [bytes "PROXY" ++ bytes " TCP4 192.168.0.1 192.168.0.11 56324 443"
            ++ [13, 10] ++ bytes "GET / HTTP/1.1\r\n"])).unshifted = [bytes "GET / HTTP/1.1\r\n"] := by
  have h := c1_v1_header ipv4Parser noOptions 0 false false
    (bytes " TCP4 192.168.0.1 192.168.0.11 56324 443") (bytes "GET / HTTP/1.1\r\n") (by decide)
  refine ⟨by decide, ?_, h.2.2.2.1⟩
  rw [show fresh = connectionListener noOptions 0 false false from rfl, h.2.2.1]
  decide

/-- C2 (counterexample): a buffer of 33 bytes with the v2 signature and header
length 28, on which the parser raises: all 28 bytes are there, and the connection
is not resolved in that pass (nothing delivered, nothing pushed back, the
exception leaves `onReadable`). -/
theorem c2_parser_raises :
    badVersion.take 12 = v2Header ∧ badVersion.length = 33
      ∧ 16 + 256 * (badVersion.getD 14 0).val + (badVersion.getD 15 0).val = 28
      ∧ (run ipv4Parser fresh (callback [badVersion])).proxiedConnections = 0
      ∧ (run ipv4Parser fresh (callback [badVersion])).unshifted = []
      ∧ (run ipv4Parser fresh (callback [badVersion])).uncaught = 1 := by
  decide

/-- C2 (amended): for a first chunk `B` of at least 16 bytes with the v2
signature, the header length computed is `16 + 256 * B[14] + B[15]`; with fewer
bytes than that nothing is parsed, delivered or pushed back; with at least that
many, exactly the first `headerLength` bytes are handed to the parser, and the
connection resolves in that pass, with exactly the bytes from offset
`headerLength` on pushed back, if and only if the parser returns a result (when
it raises, nothing is delivered or pushed back). -/
theorem c2_v2_header_length (parse : Buffer → Option ProxyData) (o : Options) (n : Int)
    (od oe : Bool) (B : Buffer) (h16 : 16 ≤ B.length) (hsig : B.take 12 = v2Header) :
    (run parse (connectionListener o n od oe) (callback [B])).detected
        = some { proxyVersion := some 2, connectionData := none,
                 headerLength := some (16 + 256 * (B.getD 14 0).val + (B.getD 15 0).val) }
      ∧ (B.length < 16 + 256 * (B.getD 14 0).val + (B.getD 15 0).val →
          (run parse (connectionListener o n od oe) (callback [B])).proxiedConnections = 0
          ∧ (run parse (connectionListener o n od oe) (callback [B])).parsed = []
          ∧ (run parse (connectionListener o n od oe) (callback [B])).unshifted = [])
      ∧ (16 + 256 * (B.getD 14 0).val + (B.getD 15 0).val ≤ B.length →
          (run parse (connectionListener o n od oe) (callback [B])).parsed
              = [B.take (16 + 256 * (B.getD 14 0).val + (B.getD 15 0).val)]
          ∧ (∀ d, parse (B.take (16 + 256 * (B.getD 14 0).val + (B.getD 15 0).val)) = some d →
              (run parse (connectionListener o n od oe) (callback [B])).proxiedConnections = 1
              ∧ (run parse (connectionListener o n od oe) (callback [B])).version = some 2
              ∧ (run parse (connectionListener o n od oe) (callback [B])).connectionData
                  = some (v2ConnectionData d)
              ∧ (run parse (connectionListener o n od oe) (callback [B])).unshifted
                  = [B.drop (16 + 256 * (B.getD 14 0).val + (B.getD 15 0).val)])
          ∧ (parse (B.take (16 + 256 * (B.getD 14 0).val + (B.getD 15 0).val)) = none →
              (run parse (connectionListener o n od oe) (callback [B])).proxiedConnections = 0
              ∧ (run parse (connectionListener o n od oe) (callback [B])).unshifted = []
              ∧ (run parse (connectionListener o n od oe) (callback [B])).uncaught = 1)) := by
  have hd := detect_v2 B (by omega) hsig
  rw [v2HeaderLength_eq B h16] at hd
  generalize 16 + 256 * (B.getD 14 0).val + (B.getD 15 0).val = hl at hd ⊢
  have hshort : B.length < hl →
      run parse (connectionListener o n od oe) (callback [B])
        = { firstRead o n od oe B with
            detected := some { Locals.init with proxyVersion := some 2, headerLength := some hl },
            timerPending := false, timeoutTimer := false } := fun hlt =>
    first_chunk_waits parse o n od oe B _ _ _ hd
      (parseHeader_v2_short parse _ _ hl rfl rfl hlt) (by simp [Locals.init])
  by_cases hle : hl ≤ B.length
  · cases hp : parse (B.take hl) with
    | none =>
      have hrun := first_chunk_raises parse o n od oe B _ _ hd
        (parseHeader_v2_raise parse _ _ hl rfl rfl hle hp)
      rw [hrun]
      refine ⟨rfl, fun h => absurd hle (by omega), fun _ => ⟨rfl, ?_, ?_⟩⟩
      · intro d hd'
        simp at hd'
      · intro _
        exact ⟨rfl, rfl, rfl⟩
    | some d =>
      have hrun := first_chunk_resolves parse o n od oe B _ _ _ hd
        (parseHeader_v2_ok parse _ _ hl d rfl rfl hle hp) (Or.inr rfl)
      rw [hrun]
      refine ⟨rfl, fun h => absurd hle (by omega), fun _ => ⟨rfl, ?_, ?_⟩⟩
      · intro d' hd'
        simp at hd'
        subst hd'
        exact ⟨rfl, rfl, rfl, rfl⟩
      · intro h
        simp at h
  · rw [hshort (by omega)]
    exact ⟨rfl, fun _ => ⟨rfl, rfl, rfl⟩, fun h => absurd h hle⟩

/-- C2 (witness): Scenario B of the specification: header length 28, address
`10.0.0.5`, port 8080, and the payload after byte 28 pushed back. -/
theorem c2_v2_header_length_witness :
    16 ≤ scenarioB.length ∧ scenarioB.take 12 = v2Header
      ∧ (run ipv4Parser fresh (callback [scenarioB])).detected
        = some { proxyVersion := some 2, connectionData := none, headerLength := some 28 }
      ∧ (run ipv4Parser fresh (callback [scenarioB])).connectionData
        = some { sourceAddress := some "10.0.0.5".toList, sourcePort := some (.finite 8080) }
      ∧ (run ipv4Parser fresh (callback [scenarioB])).unshifted = [bytes "GET /"] := by
  have h := c2_v2_header_length ipv4Parser noOptions 0 false false scenarioB (by decide) (by decide)
  have h28 : 16 + 256 * (scenarioB.getD 14 0).val + (scenarioB.getD 15 0).val = 28 := by decide
  rw [h28] at h
  have hp := (h.2.2 (by decide)).2.1 _ (show ipv4Parser (scenarioB.take 28)
    = some { proxyAddress := .inet [10, 0, 0, 5] 8080 } by decide)
  exact ⟨by decide, by decide, h.1, by rw [show fresh = connectionListener noOptions 0 false false from rfl, hp.2.2.1]; decide,
    by rw [show fresh = connectionListener noOptions 0 false false from rfl, hp.2.2.2]; decide⟩

/-- C3 (counterexample): seventeen bytes whose first 12 are not the v2 signature
and whose first 5 are not the bytes of `PROXY`, read as one chunk: the version
decided is v1 and the connection is not resolved, nothing is pushed back or
delivered. -/
theorem c3_high_bit_not_passed_through :
    12 ≤ highBitPROXY.length ∧ highBitPROXY.take 12 ≠ v2Header
      ∧ highBitPROXY.take 5 ≠ bytes "PROXY"
      ∧ ((run ipv4Parser fresh (callback [highBitPROXY])).detected.map fun l => l.proxyVersion)
          = some (some 1)
      ∧ (run ipv4Parser fresh (callback [highBitPROXY])).version = none
      ∧ (run ipv4Parser fresh (callback [highBitPROXY])).unshifted = []
      ∧ (run ipv4Parser fresh (callback [highBitPROXY])).proxiedConnections = 0 := by
  decide

/-- C3 (amended): let a byte sequence of at least 12 bytes, whose first 12 bytes
are not the v2 signature and whose first 5 bytes are not decoded as `PROXY` by
`toString('ascii')`, arrive in any chunks grouped in any way into readable
callbacks. The connection resolves as no proxy (version -1, header length 0) on
the chunk `c` with which the buffer first holds at least 12 bytes: the chunks
before `c` hold fewer than 12 bytes together, and the bytes pushed back are all
bytes of the chunks up to and including `c`, in their order; no `remoteAddress` or
`remotePort` getter is installed; the connection is delivered, and the consumer
sees the whole byte sequence. -/
theorem c3_pass_through (parse : Buffer → Option ProxyData) (o : Options) (n : Int)
    (od oe : Bool) (groups : List (List Buffer))
    (h12 : 12 ≤ groups.flatten.flatten.length)
    (hv2 : groups.flatten.flatten.take 12 ≠ v2Header)
    (hv1 : toStringAscii (groups.flatten.flatten.take 5) ≠ ['P', 'R', 'O', 'X', 'Y']) :
    (run parse (connectionListener o n od oe) (schedule groups)).resolved
        = some { proxyVersion := some (-1), connectionData := none, headerLength := some 0 }
      ∧ (run parse (connectionListener o n od oe) (schedule groups)).proxiedConnections = 1
      ∧ (run parse (connectionListener o n od oe) (schedule groups)).connectionData = none
      ∧ consumerStream (run parse (connectionListener o n od oe) (schedule groups))
          = groups.flatten.flatten
      ∧ ∃ pre c post, groups.flatten = pre ++ c :: post
          ∧ pre.flatten.length < 12 ∧ 12 ≤ (pre ++ [c]).flatten.length
          ∧ (run parse (connectionListener o n od oe) (schedule groups)).buf = (pre ++ [c]).flatten
          ∧ (run parse (connectionListener o n od oe) (schedule groups)).unshifted
              = [(pre ++ [c]).flatten] := by
  have hw : Waiting (connectionListener o n od oe) [] :=
    ⟨rfl, ⟨_, rfl⟩, rfl, rfl, rfl, by decide, rfl, rfl, rfl, rfl, rfl⟩
  have key := schedule_plain parse _ hv2 hv1 groups _ [] (Or.inl hw) rfl
  rw [List.nil_append] at key
  rcases key with h | h
  · have := h.2.2.2.2.2.1
    omega
  · obtain ⟨_, _, h3, h4, h5, h6, pre, c, post, h7, h8, h9, h10, h11⟩ := h
    exact ⟨h4, h3, h5, h6, pre, c, post, h7, h10, h11, h9, h8⟩

/-- C3 (witness): Scenario C in four chunks over three readable callbacks: the
buffer first holds 12 bytes with the third chunk, 16 bytes are pushed back, and
the consumer sees Scenario C. -/
theorem c3_pass_through_witness :
    12 ≤ scenarioCGroups.flatten.flatten.length
      ∧ (run ipv4Parser fresh (schedule scenarioCGroups)).proxiedConnections = 1
      ∧ consumerStream (run ipv4Parser fresh (schedule scenarioCGroups)) = scenarioC
      ∧ (run ipv4Parser fresh (schedule scenarioCGroups)).unshifted = [bytes "GET / HTTP/1.1\r\n"] := by
  have h := c3_pass_through ipv4Parser noOptions 0 false false scenarioCGroups
    (by decide) (by decide) (by decide)
  refine ⟨by decide, h.2.1, ?_, by decide⟩
  rw [show fresh = connectionListener noOptions 0 false false from rfl, h.2.2.2.1]
  decide

/-- Whatever follows, the first callback logs what detection decided. -/
theorem first_chunk_detected (parse : Buffer → Option ProxyData) (o : Options) (n : Int)
    (od oe : Bool) (B : Buffer) (l1 : Locals) (hd : detect Locals.init B = some l1) :
    (run parse (connectionListener o n od oe) (callback [B])).detected = some l1 := by
  obtain ⟨pe, po⟩ := parseHeader_parsed parse
    { firstRead o n od oe B with detected := some l1 } l1
  cases hp : parseHeader parse
      { firstRead o n od oe B with detected := some l1 } l1 with
  | error t =>
    obtain ⟨p, rfl⟩ := pe t hp
    rw [first_chunk_raises parse o n od oe B l1 _ hd hp]
  | ok r =>
    obtain ⟨t, l2⟩ := r
    obtain ⟨p, rfl⟩ := po t l2 hp
    by_cases hr : l2.proxyVersion = some (-1) ∨ l2.connectionData.isSome = true
    · rw [first_chunk_resolves parse o n od oe B l1 l2 _ hd hp hr]
      rfl
    · rw [first_chunk_waits parse o n od oe B l1 l2 _ hd hp hr]

theorem ofNat_toNat_small : ∀ k : Fin 128, (Char.ofNat k.val).toNat = k.val := by decide

theorem ofNat_mod_eq_iff (x : Byte) (c : Fin 128) :
    Char.ofNat (x.val % 128) = Char.ofNat c.val ↔ x.val % 128 = c.val := by
  constructor
  · intro h
    have hx := ofNat_toNat_small ⟨x.val % 128, Nat.mod_lt _ (by decide)⟩
    have hc := ofNat_toNat_small c
    simp only at hx
    rw [← hx, h, hc]
  · intro h; rw [h]

theorem toStringAscii_PROXY_iff (b : Buffer) :
    toStringAscii b = ['P', 'R', 'O', 'X', 'Y'] ↔ b.map (fun x => x.val % 128) = [80, 82, 79, 88, 89] := by
  have e : (['P', 'R', 'O', 'X', 'Y'] : List Char)
      = [Char.ofNat (80 : Fin 128).val, Char.ofNat (82 : Fin 128).val, Char.ofNat (79 : Fin 128).val,
         Char.ofNat (88 : Fin 128).val, Char.ofNat (89 : Fin 128).val] := by decide
  rw [e]
  match b with
  | [] => simp [toStringAscii]
  | [_] => simp [toStringAscii]
  | [_, _] => simp [toStringAscii]
  | [_, _, _] => simp [toStringAscii]
  | [_, _, _, _] => simp [toStringAscii]
  | [a1, a2, a3, a4, a5] =>
    simp only [toStringAscii, List.map_cons, List.map_nil, List.cons.injEq, and_true, ofNat_mod_eq_iff]
    rfl
  | _ :: _ :: _ :: _ :: _ :: _ :: _ => simp [toStringAscii]

/-- C4 (counterexample): the five bytes D0 52 4F 58 59 are not the bytes of
`PROXY`, and the version decided on them is v1. -/
theorem c4_high_bit :
    ([0xD0, 0x52, 0x4F, 0x58, 0x59] : Buffer) ≠ bytes "PROXY"
      ∧ ((run ipv4Parser fresh (callback [[0xD0, 0x52, 0x4F, 0x58, 0x59]])).detected.map
          fun l => l.proxyVersion) = some (some 1) := by
  decide

/-- C4 (amended): on the buffer `b` formed from the first chunk the version
decided is v2 exactly when `b` has at least 12 bytes that begin with the v2
signature; otherwise v1 exactly when `b` has at least 5 bytes and its first five
bytes, each with its highest bit cleared, are 50 52 4F 58 59; otherwise none
exactly when `b` has at least 12 bytes; otherwise no version is decided, nothing
is delivered or pushed back, and the bytes stay buffered. -/
theorem c4_detection (parse : Buffer → Option ProxyData) (o : Options) (n : Int)
    (od oe : Bool) (b : Buffer) :
    ((run parse (connectionListener o n od oe) (callback [b])).detected.map fun l => l.proxyVersion)
        = (if 12 ≤ b.length ∧ b.take 12 = v2Header then some (some 2)
           else if 5 ≤ b.length ∧ (b.take 5).map (fun x => x.val % 128) = [80, 82, 79, 88, 89] then
             some (some 1)
           else if 12 ≤ b.length then some (some (-1))
           else none)
      ∧ ((run parse (connectionListener o n od oe) (callback [b])).detected = none →
          (run parse (connectionListener o n od oe) (callback [b])).proxiedConnections = 0
          ∧ (run parse (connectionListener o n od oe) (callback [b])).unshifted = []
          ∧ (run parse (connectionListener o n od oe) (callback [b])).buf = b
          ∧ (run parse (connectionListener o n od oe) (callback [b])).queue = []) := by
  by_cases h2 : 12 ≤ b.length ∧ b.take 12 = v2Header
  · have hd : detect Locals.init b
        = some { Locals.init with proxyVersion := some 2, headerLength := v2HeaderLength b } :=
      detect_v2 b h2.1 h2.2
    rw [first_chunk_detected parse o n od oe b _ hd, if_pos h2]
    exact ⟨rfl, fun h => by simp at h⟩
  · by_cases h1 : 5 ≤ b.length ∧ (b.take 5).map (fun x => x.val % 128) = [80, 82, 79, 88, 89]
    · have hd : detect Locals.init b = some { Locals.init with proxyVersion := some 1 } := by
        unfold detect
        rw [if_neg (fun h => h2 h.2), if_pos ⟨rfl, h1.1, (toStringAscii_PROXY_iff _).mpr h1.2⟩]
      rw [first_chunk_detected parse o n od oe b _ hd, if_neg h2, if_pos h1]
      exact ⟨rfl, fun h => by simp at h⟩
    · have h1' : ¬ (Locals.init.proxyVersion = none ∧ 5 ≤ b.length
          ∧ toStringAscii (b.take 5) = ['P', 'R', 'O', 'X', 'Y']) :=
        fun h => h1 ⟨h.2.1, (toStringAscii_PROXY_iff _).mp h.2.2⟩
      by_cases h12 : 12 ≤ b.length
      · have hd : detect Locals.init b = some { Locals.init with proxyVersion := some (-1) } := by
          unfold detect
          rw [if_neg (fun h => h2 h.2), if_neg h1', if_pos h12]
        rw [first_chunk_detected parse o n od oe b _ hd, if_neg h2, if_neg h1, if_pos h12]
        exact ⟨rfl, fun h => by simp at h⟩
      · have hd : detect Locals.init b = none := by
          unfold detect
          rw [if_neg (fun h => h2 h.2), if_neg h1', if_neg h12]
        rw [first_chunk_undetermined parse o n od oe b hd, if_neg h2, if_neg h1, if_neg h12]
        exact ⟨rfl, fun _ => ⟨rfl, rfl, rfl, rfl⟩⟩

/-- C4 (witness): the two bytes `PR` leave the version undetermined. -/
theorem c4_detection_witness :
    (run ipv4Parser fresh (callback [bytes "PR"])).detected = none
      ∧ (run ipv4Parser fresh (callback [bytes "PR"])).proxiedConnections = 0
      ∧ (run ipv4Parser fresh (callback [bytes "PR"])).unshifted = []
      ∧ (run ipv4Parser fresh (callback [bytes "PR"])).buf = bytes "PR"
      ∧ (run ipv4Parser fresh (callback [bytes "PR"])).queue = [] :=
  ⟨by decide, (c4_detection ipv4Parser noOptions 0 false false (bytes "PR")).2 (by decide)⟩

/-- C5 (failing input): Scenario A split between `\r` and `\n` over two readable
callbacks resolves as v1 with the same address and port as in one chunk, but the
consumer sees `\nGET / HTTP/1.1\r\n` in place of `GET / HTTP/1.1\r\n`; and
Scenario A read as `PROXY` and the rest in one callback resolves as no proxy, the
whole header included in what the consumer sees. -/
theorem c5_chunking_changes_outcome :
    upToCarriageReturn ++ fromLineFeed = scenarioA
      ∧ (run ipv4Parser fresh (callback [scenarioA])).version = some 1
      ∧ consumerStream (run ipv4Parser fresh (callback [scenarioA])) = bytes "GET / HTTP/1.1\r\n"
      ∧ (run ipv4Parser fresh (callback [upToCarriageReturn] ++ callback [fromLineFeed])).version = some 1
      ∧ (run ipv4Parser fresh (callback [upToCarriageReturn] ++ callback [fromLineFeed])).connectionData
          = (run ipv4Parser fresh (callback [scenarioA])).connectionData
      ∧ consumerStream (run ipv4Parser fresh (callback [upToCarriageReturn] ++ callback [fromLineFeed]))
          = bytes "\nGET / HTTP/1.1\r\n"
      ∧ (run ipv4Parser fresh (callback [scenarioA.take 5, scenarioA.drop 5])).version = some (-1)
      ∧ (run ipv4Parser fresh (callback [scenarioA.take 5, scenarioA.drop 5])).connectionData = none
      ∧ consumerStream (run ipv4Parser fresh (callback [scenarioA.take 5, scenarioA.drop 5]))
          = scenarioA := by
  decide

/-- C6: at every moment of every run of a connection, the `data` notifications
that `socket.read()` emits included: while the shim is installed `history` holds
exactly the notifications emitted on the socket so far and the original emit has
received none of them; once `restore()` has run (which happens once), the
original emit has received exactly the notifications emitted so far, in their
order, each once and with its arguments, and `history` is `null`, so nothing more
is captured. -/
theorem c6_replay_in_order (parse : Buffer → Option ProxyData) (o : Options) (n : Int)
    (od oe : Bool) (evs : List Event) :
    ((run parse (connectionListener o n od oe) evs).emitIsShim = true →
        (run parse (connectionListener o n od oe) evs).history
            = some (run parse (connectionListener o n od oe) evs).calls
          ∧ (run parse (connectionListener o n od oe) evs).emitted = []
          ∧ (run parse (connectionListener o n od oe) evs).restores = 0)
      ∧ ((run parse (connectionListener o n od oe) evs).emitIsShim = false →
        (run parse (connectionListener o n od oe) evs).history = none
          ∧ (run parse (connectionListener o n od oe) evs).emitted
              = (run parse (connectionListener o n od oe) evs).calls
          ∧ (run parse (connectionListener o n od oe) evs).restores = 1) := by
  rcases inv_reachable parse o n od oe evs with h | h
  · obtain ⟨h1, h2, h3, h4, _⟩ := h
    exact ⟨fun _ => ⟨h2, h3, h4⟩, fun hf => absurd (h1.symm.trans hf) (by decide)⟩
  · obtain ⟨h1, h2, h3, h4, _⟩ := h
    exact ⟨fun ht => absurd (h1.symm.trans ht) (by decide), fun _ => ⟨h2, h3, h4⟩⟩

/-- C6 (witness): a `lookup` notification, then Scenario A with its `readable`
notification, then an `end` notification: the original emit receives `lookup`,
`readable`, the `data` notification of the read with the whole chunk, and `end`,
in that order. -/
theorem c6_replay_in_order_witness :
    (run ipv4Parser fresh
        ([.emit { event := "lookup", args := [.value "a"] }] ++ callback [scenarioA]
          ++ [.emit { event := "end", args := [] }])).emitIsShim = false
      ∧ (run ipv4Parser fresh
        ([.emit { event := "lookup", args := [.value "a"] }] ++ callback [scenarioA]
          ++ [.emit { event := "end", args := [] }])).emitted
        = [{ event := "lookup", args := [.value "a"] }, readable,
           { event := "data", args := [.chunk scenarioA] }, { event := "end", args := [] }] := by
  have h := (c6_replay_in_order ipv4Parser noOptions 0 false false
    ([.emit { event := "lookup", args := [.value "a"] }] ++ callback [scenarioA]
      ++ [.emit { event := "end", args := [] }])).2 (by decide)
  refine ⟨by decide, ?_⟩
  rw [show fresh = connectionListener noOptions 0 false false from rfl, h.2.1]
  decide

/-- C7 (counterexample): one byte arrives and the readable callback ends with the
version undetermined; the deadline then elapses and the socket is not destroyed.
The same with a detected v1 header that is not complete. -/
theorem c7_guard_cancelled_undetermined :
    (run ipv4Parser fresh (callback [bytes "G"])).detected = none
      ∧ (run ipv4Parser fresh (callback [bytes "G"])).proxiedConnections = 0
      ∧ (run ipv4Parser fresh (callback [bytes "G"] ++ [.deadline])).destroyed = false
      ∧ (run ipv4Parser fresh (callback [bytes "PROXY TCP4"])).proxiedConnections = 0
      ∧ (run ipv4Parser fresh (callback [bytes "PROXY TCP4"] ++ [.deadline])).destroyed = false := by
  decide

/-- C7 (amended): the guard stays armed until the first readable callback
returns. Every `onReadable` call that returns, with a terminal decision or
without, leaves the timer cleared, and a deadline that elapses afterwards changes
nothing; as long as no readable notification has been emitted (and the deadline
has not elapsed) the timer is pending, and the deadline then destroys the
socket. -/
theorem c7_guard_until_first_callback (parse : Buffer → Option ProxyData) :
    (∀ s t, onReadable parse s = .ok t →
        t.timerPending = false ∧ t.timeoutTimer = false ∧ step parse t .deadline = t)
      ∧ (∀ (o : Options) (n : Int) (od oe : Bool) (evs : List Event), (∀ e ∈ evs, Quiet e = true) →
        (run parse (connectionListener o n od oe) evs).timerPending = true
          ∧ (run parse (connectionListener o n od oe) (evs ++ [.deadline])).destroyed = true) := by
  constructor
  · intro s t h
    unfold onReadable at h
    cases hr : readLoop parse s.queue s Locals.init with
    | error u => rw [hr] at h; cases h
    | ok u =>
      rw [hr] at h
      cases h
      exact ⟨rfl, rfl, by simp [step]⟩
  · intro o n od oe evs hq
    have ha := armed_run parse n evs _ (armed_init o n od oe) hq
    refine ⟨ha.2, ?_⟩
    rw [run_append]
    exact (armed_deadline parse n _ ha).2.1

/-- C7 (witness): the callback on the one byte `G` returns with the timer cleared;
with a `lookup` notification only, the deadline destroys the socket. -/
theorem c7_guard_until_first_callback_witness :
    (run ipv4Parser fresh (callback [bytes "G"])).timerPending = false
      ∧ (run ipv4Parser fresh
          ([.emit { event := "lookup", args := [] }] ++ [.deadline])).destroyed = true := by
  refine ⟨?_, ((c7_guard_until_first_callback ipv4Parser).2 noOptions 0 false false
    [.emit { event := "lookup", args := [] }] (by decide)).2⟩
  have h := (c7_guard_until_first_callback ipv4Parser).1
    (firstCall noOptions 0 false false [bytes "G"])
    (run ipv4Parser fresh (callback [bytes "G"])) rfl
  exact h.1

/-- C8: once a connection has been delivered to the consumer, the timer is no
longer pending and `_timeoutTimer` is `null`, so the timer callback changes
nothing; and whatever happens afterwards, the timer callback never destroys the
socket, and the counter goes down only by the `close` notifications emitted. -/
theorem c8_no_timeout_after_delivery (parse : Buffer → Option ProxyData) (o : Options) (n : Int)
    (od oe : Bool) (evs after : List Event)
    (hdel : 1 ≤ (run parse (connectionListener o n od oe) evs).proxiedConnections) :
    (run parse (connectionListener o n od oe) evs).timerPending = false
      ∧ timeoutCallback (run parse (connectionListener o n od oe) evs)
          = run parse (connectionListener o n od oe) evs
      ∧ step parse (run parse (connectionListener o n od oe) evs) .deadline
          = run parse (connectionListener o n od oe) evs
      ∧ (run parse (run parse (connectionListener o n od oe) evs) after).timerDestroys = 0
      ∧ (run parse (run parse (connectionListener o n od oe) evs) after).destroyed = false
      ∧ (run parse (run parse (connectionListener o n od oe) evs) after).openSockets
          = (run parse (connectionListener o n od oe) evs).openSockets - closes (notifications after) := by
  rcases inv_reachable parse o n od oe evs with h | h
  · rw [h.2.2.2.2.1] at hdel
    omega
  · obtain ⟨h', hc⟩ := delivered_run parse n after _ h
    obtain ⟨_, _, _, _, _, h6, _, _, h9, h10⟩ := h
    obtain ⟨_, _, _, _, _, h6', h7', h8', _, _⟩ := h'
    refine ⟨h9, by simp [timeoutCallback, h10], by simp [step, h9], h7', h8', ?_⟩
    rw [h6', h6, hc, closes_append]
    push_cast
    omega

/-- C8 (witness): Scenario C is delivered; the deadline and a `close`
notification follow: the socket is not destroyed and the counter goes from 1 to
0. -/
theorem c8_no_timeout_after_delivery_witness :
    1 ≤ (run ipv4Parser fresh (callback [scenarioC])).proxiedConnections
      ∧ (run ipv4Parser (run ipv4Parser fresh (callback [scenarioC]))
          [.deadline, .emit { event := "close", args := [] }]).destroyed = false
      ∧ (run ipv4Parser (run ipv4Parser fresh (callback [scenarioC]))
          [.deadline, .emit { event := "close", args := [] }]).openSockets = 0 := by
  have h := c8_no_timeout_after_delivery ipv4Parser noOptions 0 false false (callback [scenarioC])
    [.deadline, .emit { event := "close", args := [] }] (by decide)
  refine ⟨by decide, h.2.2.2.2.1, ?_⟩
  rw [show fresh = connectionListener noOptions 0 false false from rfl, h.2.2.2.2.2]
  decide

/-- C9: when no readable notification is emitted before the deadline elapses,
the timer callback destroys the socket, and whatever happens afterwards the
connection is never delivered to the consumer and the counter is back at its
value from before the connection (a destroyed socket emits no `readable`). -/
theorem c9_timeout_without_data (parse : Buffer → Option ProxyData) (o : Options) (n : Int)
    (od oe : Bool) (before after : List Event) (hq : ∀ e ∈ before, Quiet e = true) :
    (run parse (connectionListener o n od oe) (before ++ [.deadline] ++ after)).destroyed = true
      ∧ (run parse (connectionListener o n od oe) (before ++ [.deadline] ++ after)).timerDestroys = 1
      ∧ (run parse (connectionListener o n od oe) (before ++ [.deadline] ++ after)).proxiedConnections = 0
      ∧ (run parse (connectionListener o n od oe) (before ++ [.deadline] ++ after)).openSockets = n := by
  have ha := armed_run parse n before _ (armed_init o n od oe) hq
  obtain ⟨hc, hd, _⟩ := armed_deadline parse n _ ha
  obtain ⟨hc', hd'⟩ := destroyed_run parse n after _ hc hd
  rw [run_append, run_append]
  have e : run parse (run parse (connectionListener o n od oe) before) [.deadline]
      = step parse (run parse (connectionListener o n od oe) before) .deadline := rfl
  rw [e]
  obtain ⟨_, _, _, _, h5, h6, _, h8, _⟩ := hc'
  have h1 := h8.mp hd'
  refine ⟨hd', h1, h5, ?_⟩
  rw [h6, h1]
  push_cast
  omega

/-- C9 (witness): Scenario D of the specification, with a `close` notification
and late data after the deadline. -/
theorem c9_timeout_without_data_witness :
    (∀ e ∈ ([] : List Event), Quiet e = true)
      ∧ (run ipv4Parser fresh ([] ++ [.deadline]
          ++ ([.emit { event := "close", args := [] }] ++ callback [scenarioC]))).destroyed = true
      ∧ (run ipv4Parser fresh ([] ++ [.deadline]
          ++ ([.emit { event := "close", args := [] }] ++ callback [scenarioC]))).proxiedConnections = 0
      ∧ (run ipv4Parser fresh ([] ++ [.deadline]
          ++ ([.emit { event := "close", args := [] }] ++ callback [scenarioC]))).openSockets = 0 := by
  have h := c9_timeout_without_data ipv4Parser noOptions 0 false false []
    ([.emit { event := "close", args := [] }] ++ callback [scenarioC]) (by simp)
  exact ⟨by simp, h.1, h.2.2.1, h.2.2.2⟩

/-- C10: in every run of a connection the `proxiedConnection` event is emitted
at most once, `restore()` runs at most once, and the connection is never both
delivered and destroyed by the timer callback (a destroyed socket emits no
`readable`). -/
theorem c10_interception_ends_once (parse : Buffer → Option ProxyData) (o : Options) (n : Int)
    (od oe : Bool) (evs : List Event) :
    (run parse (connectionListener o n od oe) evs).proxiedConnections ≤ 1
      ∧ (run parse (connectionListener o n od oe) evs).restores ≤ 1
      ∧ ¬ (1 ≤ (run parse (connectionListener o n od oe) evs).proxiedConnections
          ∧ 1 ≤ (run parse (connectionListener o n od oe) evs).timerDestroys) := by
  rcases inv_reachable parse o n od oe evs with h | h
  · obtain ⟨_, _, _, h4, h5, _⟩ := h
    rw [h4, h5]
    simp
  · obtain ⟨_, _, _, h4, h5, _, h7, _⟩ := h
    rw [h4, h5, h7]
    simp

theorem indexOf_PROXY (tail : Buffer) (i : Nat)
    (hi : indexOf (Char.ofNat 13) (toStringAscii (bytes "PROXY" ++ tail)) = some i) : 0 < i := by
  have e : toStringAscii (bytes "PROXY" ++ tail)
      = 'P' :: 'R' :: 'O' :: 'X' :: 'Y' :: toStringAscii tail := by
    rw [toStringAscii_append]
    have : toStringAscii (bytes "PROXY") = ['P', 'R', 'O', 'X', 'Y'] := by decide
    rw [this]; rfl
  rw [e] at hi
  have hP : ¬ ('P' = Char.ofNat 13) := by decide
  simp only [indexOf, if_neg hP] at hi
  cases hj : (if 'R' = Char.ofNat 13 then some 0
      else Option.map (fun x => x + 1) (if 'O' = Char.ofNat 13 then some 0
        else Option.map (fun x => x + 1) (if 'X' = Char.ofNat 13 then some 0
          else Option.map (fun x => x + 1) (if 'Y' = Char.ofNat 13 then some 0
            else Option.map (fun x => x + 1) (indexOf (Char.ofNat 13) (toStringAscii tail)))))) with
  | none => rw [hj] at hi; simp at hi
  | some j =>
    rw [hj] at hi
    simp at hi
    omega

/-- C11: a first and only chunk that begins with `PROXY` and holds a carriage
return (at index `i` of the decoded buffer), and whose 5th space-delimited field
is missing or is not read as a number by `parseInt`, is not aborted: no exception
leaves the callback, the connection is resolved as v1 and delivered, the `i + 2`
header bytes are stripped, and the `remotePort` getter returns 0. -/
theorem c11_unparseable_port (parse : Buffer → Option ProxyData) (o : Options) (n : Int)
    (od oe : Bool) (tail : Buffer) (i : Nat)
    (hi : indexOf (Char.ofNat 13) (toStringAscii (bytes "PROXY" ++ tail)) = some i)
    (hport : parseInt (split ' ' (toStringAscii ((bytes "PROXY" ++ tail).take (i + 2))))[4]? = none) :
    (run parse (connectionListener o n od oe) (callback [bytes "PROXY" ++ tail])).uncaught = 0
      ∧ (run parse (connectionListener o n od oe) (callback [bytes "PROXY" ++ tail])).version = some 1
      ∧ (run parse (connectionListener o n od oe) (callback [bytes "PROXY" ++ tail])).proxiedConnections = 1
      ∧ (run parse (connectionListener o n od oe) (callback [bytes "PROXY" ++ tail])).unshifted
          = [(bytes "PROXY" ++ tail).drop (i + 2)]
      ∧ ((run parse (connectionListener o n od oe) (callback [bytes "PROXY" ++ tail])).connectionData.map
          remotePort) = some (.finite 0) := by
  have hd : detect Locals.init (bytes "PROXY" ++ tail)
      = some { Locals.init with proxyVersion := some 1 } := by
    rw [bytes_PROXY]; exact detect_PROXY _
  have hrun := first_chunk_resolves parse o n od oe _ _ _ _ hd
    (parseHeader_v1 parse _ _ i rfl hi (indexOf_PROXY tail i hi)) (Or.inr rfl)
  rw [hrun]
  refine ⟨rfl, rfl, rfl, rfl, ?_⟩
  show Option.map remotePort (some (v1ConnectionData (bytes "PROXY" ++ tail) (i + 2))) = _
  simp only [v1ConnectionData, Option.map, remotePort, hport]

/-- C11 (witness): the port field `abc` in an otherwise complete header. -/
theorem c11_unparseable_port_witness :
    (run ipv4Parser fresh (callback [bytes "PROXY" ++ bytes " TCP4 1.2.3.4 5.6.7.8 abc 80\r\nGET"])).proxiedConnections = 1
      ∧ (run ipv4Parser fresh (callback [bytes "PROXY" ++ bytes " TCP4 1.2.3.4 5.6.7.8 abc 80\r\nGET"])).unshifted
          = [bytes "GET"]
      ∧ ((run ipv4Parser fresh (callback [bytes "PROXY" ++ bytes " TCP4 1.2.3.4 5.6.7.8 abc 80\r\nGET"])).connectionData.map
          remotePort) = some (.finite 0) := by
  have h := c11_unparseable_port ipv4Parser noOptions 0 false false
    (bytes " TCP4 1.2.3.4 5.6.7.8 abc 80\r\nGET") 33 (by decide) (by decide)
  refine ⟨h.2.2.1, ?_, h.2.2.2.2⟩
  rw [show fresh = connectionListener noOptions 0 false false from rfl, h.2.2.2.1]
  decide

/-- C12: for a first chunk with a complete v2 header on which the parser returns
the result `d`, the connection is delivered; when `d` carries a source address
`a`, `remoteAddress` is the decimal values of `a` joined by `.`, and `remotePort`
is the source port `d` reports (0 for a Unix address, which reports none); when
`d` carries no source address, `remoteAddress` is `0.0.0.0`, `sourcePort` is
absent and `remotePort` is 0. -/
theorem c12_v2_connection_data (parse : Buffer → Option ProxyData) (o : Options) (n : Int)
    (od oe : Bool) (B : Buffer) (d : ProxyData) (h16 : 16 ≤ B.length)
    (hsig : B.take 12 = v2Header)
    (hle : 16 + 256 * (B.getD 14 0).val + (B.getD 15 0).val ≤ B.length)
    (hp : parse (B.take (16 + 256 * (B.getD 14 0).val + (B.getD 15 0).val)) = some d) :
    (run parse (connectionListener o n od oe) (callback [B])).proxiedConnections = 1
      ∧ ∃ cd, (run parse (connectionListener o n od oe) (callback [B])).connectionData = some cd
        ∧ (∀ a p, d.proxyAddress = .inet a p →
            remoteAddress cd = some (joinDot a) ∧ cd.sourcePort = some (.finite p)
              ∧ remotePort cd = .finite p)
        ∧ (∀ a, d.proxyAddress = .unix a →
            remoteAddress cd = some (joinDot a) ∧ cd.sourcePort = none
              ∧ remotePort cd = .finite 0)
        ∧ (d.proxyAddress = .unspec →
            remoteAddress cd = some ['0', '.', '0', '.', '0', '.', '0'] ∧ cd.sourcePort = none
              ∧ remotePort cd = .finite 0) := by
  have hd := detect_v2 B (by omega) hsig
  rw [v2HeaderLength_eq B h16] at hd
  have hrun := first_chunk_resolves parse o n od oe B _ _ _ hd
    (parseHeader_v2_ok parse _ _ _ d rfl rfl hle hp) (Or.inr rfl)
  rw [hrun]
  refine ⟨rfl, v2ConnectionData d, rfl, ?_, ?_, ?_⟩
  · intro a p ha
    refine ⟨by simp [remoteAddress, v2ConnectionData, ProxyData.address, ha],
      by simp [v2ConnectionData, ProxyData.sourcePort, ha], ?_⟩
    simp only [remotePort, v2ConnectionData, ProxyData.sourcePort, ha]
    split <;> simp_all
  · intro a ha
    exact ⟨by simp [remoteAddress, v2ConnectionData, ProxyData.address, ha],
      by simp [v2ConnectionData, ProxyData.sourcePort, ha],
      by simp [remotePort, v2ConnectionData, ProxyData.sourcePort, ha]⟩
  · intro ha
    refine ⟨?_, by simp [v2ConnectionData, ProxyData.sourcePort, ha],
      by simp [remotePort, v2ConnectionData, ProxyData.sourcePort, ha]⟩
    simp only [remoteAddress, v2ConnectionData, ProxyData.address, ha, Option.getD]
    decide

/-- C12 (witness): Scenario B of the specification: address bytes 0A 00 00 05 and
port 8080. -/
theorem c12_v2_connection_data_witness :
    (run ipv4Parser fresh (callback [scenarioB])).proxiedConnections = 1
      ∧ ∃ cd, (run ipv4Parser fresh (callback [scenarioB])).connectionData = some cd
        ∧ remoteAddress cd = some ['1', '0', '.', '0', '.', '0', '.', '5']
        ∧ remotePort cd = .finite 8080 := by
  obtain ⟨h1, cd, hcd, hinet, _, _⟩ := c12_v2_connection_data ipv4Parser noOptions 0 false false
    scenarioB { proxyAddress := .inet [10, 0, 0, 5] 8080 } (by decide) (by decide) (by decide)
    (by decide)
  obtain ⟨ha, _, hp⟩ := hinet [10, 0, 0, 5] 8080 rfl
  exact ⟨h1, cd, hcd, by rw [ha]; decide, hp⟩

/-- C13 (failing input): with no option set, `strict` takes its default `true`,
and Scenario C, which carries no PROXY header, is resolved as no proxy and
delivered to the consumer with all its bytes, the socket left open. -/
theorem c13_strict_not_enforced :
    (connectionListener noOptions 0 false false).options.strict = some true
      ∧ (run ipv4Parser fresh (callback [scenarioC])).version = some (-1)
      ∧ (run ipv4Parser fresh (callback [scenarioC])).proxiedConnections = 1
      ∧ (run ipv4Parser fresh (callback [scenarioC])).destroyed = false
      ∧ consumerStream (run ipv4Parser fresh (callback [scenarioC])) = scenarioC := by
  decide

/-- C14 (failing input): two bytes arrive and a readable callback runs, then the
peer closes: `end` and `close` are emitted and the deadline elapses. The counter
went from 0 to 1 on accept and is still 1, with `close` among the notifications
emitted on the socket. -/
theorem c14_counter_not_decremented :
    (run ipv4Parser fresh
        (callback [bytes "PR"] ++ [.emit { event := "end", args := [] },
          .emit { event := "close", args := [] }, .deadline])).openSockets = 1
      ∧ (run ipv4Parser fresh
        (callback [bytes "PR"] ++ [.emit { event := "end", args := [] },
          .emit { event := "close", args := [] }, .deadline])).proxiedConnections = 0
      ∧ (run ipv4Parser fresh
        (callback [bytes "PR"] ++ [.emit { event := "end", args := [] },
          .emit { event := "close", args := [] }, .deadline])).calls
        = [readable, dataNotification (bytes "PR"), { event := "end", args := [] },
           { event := "close", args := [] }] := by
  decide

/-- C15 (failing input): Scenario A read as two chunks in one readable callback.
On the chunk `PROXY` detection sets the version to 1; on the next chunk, with
that version in the local variable, detection sets it to -1, and the connection
is resolved with -1. -/
theorem c15_version_overwritten :
    detect Locals.init (scenarioA.take 5)
        = some { proxyVersion := some 1, connectionData := none, headerLength := some 0 }
      ∧ detect { proxyVersion := some 1, connectionData := none, headerLength := some 0 } scenarioA
        = some { proxyVersion := some (-1), connectionData := none, headerLength := some 0 }
      ∧ (run ipv4Parser fresh (callback [scenarioA.take 5, scenarioA.drop 5])).version = some (-1)
      ∧ (run ipv4Parser fresh (callback [scenarioA])).version = some 1 := by
  decide

/-- C16 (failing input): the 46 bytes of Scenario A up to and including `\r`, as
one chunk: the connection resolves as v1 with `headerLength` 47, more than the
46 buffered bytes. With a header line that holds a lone `\r`, the removed prefix
ends with `\r` and `X`. -/
theorem c16_header_length_past_buffer :
    upToCarriageReturn.length = 46
      ∧ (run ipv4Parser fresh (callback [upToCarriageReturn])).version = some 1
      ∧ ((run ipv4Parser fresh (callback [upToCarriageReturn])).resolved.map fun l => l.headerLength)
          = some (some 47)
      ∧ ((run ipv4Parser fresh
            (callback [bytes "PROXY TCP4 1.1.1.1 2.2.2.2 1 2\rX\r\nGET"])).resolved.map
          fun l => l.headerLength) = some (some 32)
      ∧ ((bytes "PROXY TCP4 1.1.1.1 2.2.2.2 1 2\rX\r\nGET").take 32).drop 30 = [13, 88] := by
  decide

end ProxyWrap
